import Mathlib

/-!
A verification development for the ELAN annotation-document engine of the
speach library (module speach/elan.py).  The Python classes TimeSlot,
Annotation, Tier, ControlledVocab, LinguisticType and Doc are shallowly
embedded as Lean structures; the parsing pipeline (Doc.parse_eaf_stream =
_parse_root followed by _resolve_structure), the serializer (Doc.to_xml_bin)
and the mutators (Doc.new_tier, Doc.new_timeslot, Tier.ID setter,
Tier.new_annotation) are embedded as pure functions over those structures.

Modelling conventions:
* The XML DOM kept by the Python objects is embedded as the tree type XNode.
  The third-party XML codec (ElementTree tostring/fromstring) is modelled as
  the identity at tree level, so serialization is the projection of the
  retained DOM root; pretty printing is cosmetic only.
* Python exceptions over mutable state are modelled by Except carrying the
  state at raise time: a mutator returns either ok (newDoc, result) or
  error (err, docAtRaiseTime).
* Python object aliasing (a Tier holds the same node object that sits in the
  DOM root; time slots are shared between the time order and annotations) is
  modelled by indices into the root children list and by slot records looked
  up by ID; no modelled operation deletes or re-values a slot, so the ID
  indirection is observationally equivalent to the object aliasing.
* Python str(int) and int(str) are modelled by intStr and parseIntM below,
  which agree with Python on all canonical decimal numerals.
-/

/-! ### Decimal numerals: model of Python str()/int() and Lean Nat.repr -/

def charVal (c : Char) : Nat := c.toNat - 48

def isDigitChar (c : Char) : Bool := decide (48 ≤ c.toNat) && decide (c.toNat ≤ 57)

def parseNatAux : List Char → Nat → Option Nat
  | [], acc => some acc
  | c :: cs, acc => if isDigitChar c then parseNatAux cs (acc * 10 + charVal c) else none

/-- Decode a nonempty all-digit character list as a natural number. -/
def parseNatChars : List Char → Option Nat
  | [] => none
  | c :: cs => parseNatAux (c :: cs) 0

/-- Model of Python int() on (canonical, optionally signed) decimal strings;
any other string is rejected, which Python reports as a ValueError. -/
def parseIntM (s : String) : Option Int :=
  match s.data with
  | [] => none
  | c :: cs =>
    if c = '-' then (parseNatChars cs).map (fun n => -(n : Int))
    else if c = '+' then (parseNatChars cs).map (fun n => (n : Int))
    else (parseNatChars (c :: cs)).map (fun n => (n : Int))

/-- Model of Python str() on an integer. -/
def intStr (i : Int) : String :=
  if i < 0 then "-" ++ Nat.repr i.natAbs else Nat.repr i.natAbs

/-! ### Association lists with Python dict semantics (replace or append) -/

def dictGet {α β : Type} [DecidableEq α] : List (α × β) → α → Option β
  | [], _ => none
  | p :: ps, k => if p.1 = k then some p.2 else dictGet ps k

def dictInsert {α β : Type} [DecidableEq α] : List (α × β) → α → β → List (α × β)
  | [], k, v => [(k, v)]
  | p :: ps, k, v => if p.1 = k then (k, v) :: ps else p :: dictInsert ps k v

def dictKeys {α β : Type} (l : List (α × β)) : List α := l.map Prod.fst

/-! ### ID probe: seed = len + 1, increment while the ID is taken
(Doc.new_annotation_id and Doc.new_timeslot share this pattern). -/

def probeAux (pre : String) (taken : List String) : Nat → Nat → Option Nat
  | 0, _ => none
  | fuel + 1, seed =>
    if pre ++ Nat.repr seed ∈ taken then probeAux pre taken fuel (seed + 1) else some seed

/-- First number k at or after start such that pre ++ repr k is not taken.
The Python loop is unbounded; fuel taken.length + 1 is proved sufficient
(probeId_spec), so the fallback branch is dead code. -/
def probeId (pre : String) (taken : List String) (start : Nat) : String :=
  match probeAux pre taken (taken.length + 1) start with
  | some k => pre ++ Nat.repr k
  | none => pre ++ Nat.repr 0

/-! ### XML trees (the DOM retained by every Doc) -/

/-- An element tree node: tag, attributes (a value of none models an
attribute set to Python None), text, children. -/
inductive XNode where
  | mk (tag : String) (attrs : List (String × Option String)) (text : Option String)
      (children : List XNode)

instance : Inhabited XNode := ⟨.mk "" [] none []⟩

def XNode.tag : XNode → String
  | .mk t _ _ _ => t

def XNode.attrs : XNode → List (String × Option String)
  | .mk _ a _ _ => a

def XNode.text : XNode → Option String
  | .mk _ _ x _ => x

def XNode.children : XNode → List XNode
  | .mk _ _ _ c => c

/-- Element.get(key): None both for a missing attribute and for an
attribute assigned None. -/
def XNode.get (n : XNode) (k : String) : Option String :=
  match dictGet n.attrs k with
  | some v => v
  | none => none

/-- Element.get(key, default). -/
def XNode.getD (n : XNode) (k : String) (dflt : String) : String :=
  match n.get k with
  | some v => v
  | none => dflt

/-- Element.set(key, value): replace in place or append. -/
def XNode.setAttr (n : XNode) (k : String) (v : Option String) : XNode :=
  .mk n.tag (dictInsert n.attrs k v) n.text n.children

def XNode.setText (n : XNode) (v : Option String) : XNode :=
  .mk n.tag n.attrs v n.children

/-- Element.find(tag): first child with the given tag. -/
def XNode.find (n : XNode) (t : String) : Option XNode :=
  n.children.find? (fun c => c.tag == t)

/-- Index of the first child with the given tag. -/
def XNode.findIdx (n : XNode) (t : String) : Option Nat :=
  n.children.findIdx? (fun c => c.tag == t)

/-- Doc._find_last_element_index: index of the last child with the tag. -/
def XNode.lastIdxOf (n : XNode) (t : String) : Option Nat :=
  (n.children.foldl
    (fun (st : Nat × Option Nat) c =>
      (st.1 + 1, if c.tag = t then some st.1 else st.2))
    (0, none)).2

def XNode.appendChild (n : XNode) (c : XNode) : XNode :=
  .mk n.tag n.attrs n.text (n.children ++ [c])

/-- list.insert(i, c) (Python clamps the index). -/
def XNode.insertChild (n : XNode) (i : Nat) (c : XNode) : XNode :=
  .mk n.tag n.attrs n.text (n.children.take i ++ c :: n.children.drop i)

def XNode.modifyChild (n : XNode) (i : Nat) (f : XNode → XNode) : XNode :=
  .mk n.tag n.attrs n.text
    (n.children.set i (f (n.children.getD i default)))

/-! ### TimeSlot (speach.elan.TimeSlot) -/

/-- An ELAN time anchor: ID and optional millisecond value. -/
structure TimeSlot where
  ID : Option String
  value : Option Int
deriving DecidableEq

instance : Inhabited TimeSlot := ⟨⟨none, none⟩⟩

/-- TimeSlot.__lt__ restricted to a TimeSlot operand: false when the other
slot is unanchored, true when only self is unanchored, else value order. -/
def TimeSlot.lt (self other : TimeSlot) : Bool :=
  match other.value with
  | none => false
  | some ov =>
    match self.value with
    | none => true
    | some sv => decide (sv < ov)

/-- TimeSlot.__gt__ restricted to a TimeSlot operand: true when the other
slot is unanchored, false when only self is unanchored, else value order. -/
def TimeSlot.gt (self other : TimeSlot) : Bool :=
  match other.value with
  | none => true
  | some ov =>
    match self.value with
    | none => false
    | some sv => decide (ov < sv)

/-- TimeSlot.__eq__ restricted to a TimeSlot operand. -/
def TimeSlot.eqTS (self other : TimeSlot) : Bool :=
  decide (self.value = other.value)

/-- TimeSlot.__lt__ with an int operand. -/
def TimeSlot.ltInt (self : TimeSlot) (x : Int) : Bool :=
  match self.value with
  | none => true
  | some sv => decide (sv < x)

/-- TimeSlot.__gt__ with an int operand. -/
def TimeSlot.gtInt (self : TimeSlot) (x : Int) : Bool :=
  match self.value with
  | none => false
  | some sv => decide (x < sv)

/-- TimeSlot.__eq__ with an int operand. -/
def TimeSlot.eqInt (self : TimeSlot) (x : Int) : Bool :=
  match self.value with
  | none => false
  | some sv => decide (sv = x)

/-- Python `x <= slot` reflects to TimeSlot.__ge__(slot, x) = slot > x or slot == x. -/
def TimeSlot.geInt (self : TimeSlot) (x : Int) : Bool :=
  self.gtInt x || self.eqInt x

/-- Python `x >= slot` reflects to TimeSlot.__le__(slot, x) = slot < x or slot == x. -/
def TimeSlot.leInt (self : TimeSlot) (x : Int) : Bool :=
  self.ltInt x || self.eqInt x

/-! ### Annotations (speach.elan.TimeAnnotation / RefAnnotation) -/

/-- An annotation: either time alignable (holding its two slot records) or a
reference annotation.  resolvedTo models RefAnnotation.__ref: none until
resolve() has run, thereafter the ID of the resolved target (looked up in the
document's annotation index, which in the modelled operations is
observationally equal to holding the object). -/
inductive Ann where
  | time (ID : Option String) (fromTs toTs : TimeSlot) (value : String)
      (cveRef : Option String)
  | ref (ID : Option String) (refID : Option String) (resolvedTo : Option String)
      (previous : Option String) (value : String) (cveRef : Option String)
deriving DecidableEq

instance : Inhabited Ann := ⟨.time none default default "" none⟩

def Ann.ID : Ann → Option String
  | .time i _ _ _ _ => i
  | .ref i _ _ _ _ _ => i

def Ann.value : Ann → String
  | .time _ _ _ v _ => v
  | .ref _ _ _ _ v _ => v

def Ann.cveRef : Ann → Option String
  | .time _ _ _ _ c => c
  | .ref _ _ _ _ _ c => c

/-- RefAnnotation.ref_id; a TimeAnnotation has no such attribute and the
DataObject base returns None for it. -/
def Ann.refID : Ann → Option String
  | .time _ _ _ _ _ => none
  | .ref _ r _ _ _ _ => r

/-- RefAnnotation.previous (the raw PREVIOUS_ANNOTATION string). -/
def Ann.previous : Ann → Option String
  | .time _ _ _ _ _ => none
  | .ref _ _ _ p _ _ => p

/-! ### Linguistic types, constraints, vocabularies, tiers -/

/-- speach.elan.LinguisticType: the XML attributes this module reads, plus
the resolved vocabulary (by ID; none models Python None) and the back list
of tiers using this type (by index into Doc.tiers). -/
structure LingType where
  linguisticTypeID : Option String
  constraints : Option String
  timeAlignable : Option Bool
  controlledVocabularyRef : Option String
  vocab : Option String
  tiers : List Nat
deriving DecidableEq

instance : Inhabited LingType := ⟨none, none, none, none, none, []⟩

/-- speach.elan.Constraint. -/
structure ConstraintM where
  description : Option String
  stereotype : Option String
deriving DecidableEq

/-- speach.elan.CVEntry. -/
structure CVEntry where
  ID : Option String
  langRef : Option String
  value : Option String
  description : Option String
deriving DecidableEq

instance : Inhabited CVEntry := ⟨none, none, none, none⟩

/-- speach.elan.ControlledVocab: ordered entries plus the ID index and the
value index (Python dicts).  descNode holds (text, LANG_REF) of the last
DESCRIPTION child, none when no such child was seen (in which case the
Python attributes are unset). -/
structure ControlledVocab where
  ID : Option String
  descNode : Option (Option String × Option String)
  entries : List CVEntry
  entriesMap : List (Option String × CVEntry)
  valuesMap : List (Option String × CVEntry)
  tiers : List Nat
deriving DecidableEq

instance : Inhabited ControlledVocab := ⟨none, none, [], [], [], []⟩

def ControlledVocab.hasValue (cv : ControlledVocab) (v : Option String) : Bool :=
  (dictGet cv.valuesMap v).isSome

def ControlledVocab.byValue (cv : ControlledVocab) (v : Option String) : CVEntry :=
  (dictGet cv.valuesMap v).getD default

/-- speach.elan.Tier.  nodeIdx is the position of this tier's TIER element
among the root children (the object alias to its DOM node); childrenIdx are
the indices (into Doc.tiers) of the tiers in self.children. -/
structure Tier where
  ID : Option String
  typeRefID : Option String
  participant : String
  parentRef : Option String
  defaultLocale : Option String
  annotations : List Ann
  childrenIdx : List Nat
  nodeIdx : Nat
deriving DecidableEq

instance : Inhabited Tier := ⟨none, none, "", none, none, [], [], 0⟩

/-- speach.elan.Locale. -/
structure LocaleM where
  countryCode : Option String
  languageCode : String
deriving DecidableEq

/-! ### The document aggregate (speach.elan.Doc) -/

/-- speach.elan.Doc: the registries, the document metadata and the retained
DOM root.  tierMap models the internal __tier_map: none after
_reset_tier_map, rebuilt on demand; values are indices into tiers. -/
structure Doc where
  author : Option String
  date : Option String
  fileformat : Option String
  version : Option String
  properties : List (Option String × Option String)
  timeOrder : List (Option String × TimeSlot)
  tiers : List Tier
  tierMap : Option (List (Option String × Nat))
  annMap : List (Option String × Ann)
  lingTypes : List LingType
  constraintList : List ConstraintM
  vocabs : List ControlledVocab
  licenses : List String
  externalRefs : List (Option String × Option String × Option String)
  languages : List (String × String × String)
  locale : Option LocaleM
  headerIdx : Option Nat
  xmlRoot : XNode

instance : Inhabited Doc :=
  ⟨⟨none, none, none, none, [], [], [], none, [], [], [], [], [], [], [], none, none,
    default⟩⟩

/-- Doc.tier_map (the property): rebuilt from the tier list when the stored
map has been reset. -/
def buildTierMap (ts : List Tier) : List (Option String × Nat) :=
  (ts.foldl (fun (st : Nat × List (Option String × Nat)) t =>
    (st.1 + 1, dictInsert st.2 t.ID st.1)) (0, [])).2

def Doc.tierMapNow (d : Doc) : List (Option String × Nat) :=
  match d.tierMap with
  | some m => m
  | none => buildTierMap d.tiers

/-- Doc.__getitem__ / __contains__: tier index by tier ID. -/
def Doc.getTier (d : Doc) (tid : Option String) : Option Nat :=
  dictGet d.tierMapNow tid

/-- Doc.annotation: get annotation by ID from the global index. -/
def Doc.annotation (d : Doc) (aid : Option String) : Option Ann :=
  dictGet d.annMap aid

/-- Doc.get_linguistic_type (first matching ID), returning the index too. -/
def Doc.getLingTypeIdx (d : Doc) (tid : Option String) : Option Nat :=
  d.lingTypes.findIdx? (fun lt => lt.linguisticTypeID == tid)

def Doc.getLingType (d : Doc) (tid : Option String) : Option LingType :=
  d.lingTypes.find? (fun lt => lt.linguisticTypeID == tid)

/-- Doc.get_vocab (first matching ID), returning the index too. -/
def Doc.getVocabIdx (d : Doc) (vid : Option String) : Option Nat :=
  d.vocabs.findIdx? (fun cv => cv.ID == vid)

def Doc.getVocab (d : Doc) (vid : Option String) : Option ControlledVocab :=
  d.vocabs.find? (fun cv => cv.ID == vid)

/-- Doc.new_annotation_id: probe a1, a2, ... from len(ann_map) + 1 skipping
taken IDs (a key of None is never equal to a probed string). -/
def Doc.newAnnotationId (d : Doc) : String :=
  probeId "a" ((dictKeys d.annMap).filterMap id) (d.annMap.length + 1)

/-- Doc._register_ann. -/
def Doc.registerAnn (d : Doc) (a : Ann) : Doc :=
  { d with annMap := dictInsert d.annMap a.ID a }

/-- Tier.stereotype = self.type_ref.constraints; an unknown type makes
type_ref None and the attribute access raise (modelled as none ⇒ caller
raises AttributeError). -/
def Doc.stereotypeOf (d : Doc) (t : Tier) : Option (Option String) :=
  (d.getLingType t.typeRefID).map (fun lt => lt.constraints)

/-- Tier.vocab: the resolved vocabulary of the tier's type, when any. -/
def Doc.vocabOf (d : Doc) (t : Tier) : Option String :=
  match d.getLingType t.typeRefID with
  | none => none
  | some lt => lt.vocab

/-! ### Python exceptions -/

inductive PyErr where
  | valueError (msg : String)
  | typeError
  | attributeError
  | keyError
  | notImplementedError
deriving DecidableEq

/-! ### Structural parsing (Doc._parse_root and its helpers) -/

/-- TimeSlot.__init__ from a TIME_SLOT node: a falsy TIME_VALUE gives an
unanchored slot, otherwise int() must succeed. -/
def tsFromNode (node : XNode) : Except PyErr TimeSlot :=
  match node.get "TIME_VALUE" with
  | none => .ok ⟨node.get "TIME_SLOT_ID", none⟩
  | some s =>
    if s = "" then .ok ⟨node.get "TIME_SLOT_ID", none⟩
    else
      match parseIntM s with
      | some i => .ok ⟨node.get "TIME_SLOT_ID", some i⟩
      | none => .error (.valueError "invalid literal for int")

/-- Doc._add_timeslot_xml. -/
def Doc.addTimeslotXml (d : Doc) (node : XNode) : Except PyErr (Doc × TimeSlot) :=
  match tsFromNode node with
  | .error e => .error e
  | .ok ts => .ok ({ d with timeOrder := dictInsert d.timeOrder ts.ID ts }, ts)

def strOrEmpty : Option String → String
  | some s => s
  | none => ""

/-- Tier._add_annotation_xml: build one annotation from an ANNOTATION node
(slot references must resolve in the current time order). -/
def annFromXml (d : Doc) (annNode : XNode) : Except PyErr Ann :=
  match annNode.find "ALIGNABLE_ANNOTATION" with
  | some al =>
    let annId := al.get "ANNOTATION_ID"
    let fromId := al.get "TIME_SLOT_REF1"
    let cve := al.get "CVE_REF"
    match dictGet d.timeOrder fromId with
    | none => .error (.valueError "Time slot ID not found")
    | some fromTs =>
      let toId := al.get "TIME_SLOT_REF2"
      match dictGet d.timeOrder toId with
      | none => .error (.valueError "Time slot ID not found")
      | some toTs =>
        match al.find "ANNOTATION_VALUE" with
        | none =>
          .error (.valueError
            "ALIGNABLE_ANNOTATION node must contain an ANNOTATION_VALUE node")
        | some vn => .ok (.time annId fromTs toTs (strOrEmpty vn.text) cve)
  | none =>
    match annNode.find "REF_ANNOTATION" with
    | some rn =>
      match rn.find "ANNOTATION_VALUE" with
      | none =>
        .error (.valueError "REF_ANNOTATION node must contain an ANNOTATION_VALUE node")
      | some vn =>
        .ok (.ref (rn.get "ANNOTATION_ID") (rn.get "ANNOTATION_REF") none
          (rn.get "PREVIOUS_ANNOTATION") (strOrEmpty vn.text) (rn.get "CVE_REF"))
    | none => .error (.valueError "ANNOTATION node must not be empty")

def tierAnnsFromXml (d : Doc) : List XNode → Except PyErr (List Ann)
  | [] => .ok []
  | e :: es =>
    match annFromXml d e with
    | .error err => .error err
    | .ok a =>
      match tierAnnsFromXml d es with
      | .error err => .error err
      | .ok rest => .ok (a :: rest)

/-- Tier.__init__ from a TIER node at position nodeIdx among the root
children; an empty PARENT_REF is normalized to none. -/
def tierFromXml (d : Doc) (node : XNode) (nodeIdx : Nat) : Except PyErr Tier :=
  match tierAnnsFromXml d node.children with
  | .error e => .error e
  | .ok anns =>
    .ok { ID := node.get "TIER_ID"
          typeRefID := node.get "LINGUISTIC_TYPE_REF"
          participant := node.getD "PARTICIPANT" ""
          parentRef :=
            match node.get "PARENT_REF" with
            | some s => if s = "" then none else some s
            | none => none
          defaultLocale := node.get "DEFAULT_LOCALE"
          annotations := anns
          childrenIdx := []
          nodeIdx := nodeIdx }

/-- The tier_map property access materializes the map. -/
def Doc.materializeTierMap (d : Doc) : Doc :=
  { d with tierMap := some d.tierMapNow }

/-- Append a tier to the tier list and enter it in the tier map. -/
def Doc.pushTier (d : Doc) (tier : Tier) : Doc :=
  { d with tiers := d.tiers ++ [tier]
           tierMap := some (dictInsert d.tierMapNow tier.ID d.tiers.length) }

/-- Doc._add_tier_xml: parse the tier, reject a duplicate tier ID, then
append it to the tier list and the (materialized) tier map.  The error
carries the state at raise time, as the duplicate check materializes the
tier map through the tier_map property. -/
def Doc.addTierXml (d : Doc) (node : XNode) (nodeIdx : Nat) :
    Except (PyErr × Doc) (Doc × Tier) :=
  match tierFromXml d node nodeIdx with
  | .error e => .error (e, d)
  | .ok tier =>
    if (dictGet d.materializeTierMap.tierMapNow tier.ID).isSome then
      .error (.valueError "Duplicated tier ID", d.materializeTierMap)
    else
      .ok (d.materializeTierMap.pushTier tier, tier)

/-- LinguisticType.__init__: lowercased attributes, TIME_ALIGNABLE read as
the comparison with "true". -/
def ltFromXml (node : XNode) : LingType :=
  { linguisticTypeID := node.get "LINGUISTIC_TYPE_ID"
    constraints := node.get "CONSTRAINTS"
    timeAlignable := (node.get "TIME_ALIGNABLE").map (fun s => decide (s = "true"))
    controlledVocabularyRef := node.get "CONTROLLED_VOCABULARY_REF"
    vocab := none
    tiers := [] }

/-- CVEntry.__init__: a CV_ENTRY_ML node without a CVE_VALUE child makes the
attribute reads on None raise. -/
def cvEntryFromXml (node : XNode) : Except PyErr CVEntry :=
  match node.find "CVE_VALUE" with
  | none => .error .attributeError
  | some vn =>
    .ok { ID := node.get "CVE_ID"
          langRef := vn.get "LANG_REF"
          value := vn.text
          description := vn.get "DESCRIPTION" }

/-- ControlledVocab._add_child without positioning. -/
def ControlledVocab.addChild (cv : ControlledVocab) (e : CVEntry) : ControlledVocab :=
  { cv with entries := cv.entries ++ [e]
            entriesMap := dictInsert cv.entriesMap e.ID e
            valuesMap := dictInsert cv.valuesMap e.value e }

def cvFold : List XNode → ControlledVocab → Except PyErr ControlledVocab
  | [], cv => .ok cv
  | c :: rest, cv =>
    if c.tag = "DESCRIPTION" then
      cvFold rest { cv with descNode := some (c.text, c.get "LANG_REF") }
    else if c.tag = "CV_ENTRY_ML" then
      match cvEntryFromXml c with
      | .error e => .error e
      | .ok entry => cvFold rest (cv.addChild entry)
    else cvFold rest cv

/-- ControlledVocab.__init__ from a CONTROLLED_VOCABULARY node. -/
def cvFromXml (node : XNode) : Except PyErr ControlledVocab :=
  cvFold node.children
    { ID := node.get "CV_ID", descNode := none, entries := [], entriesMap := []
      valuesMap := [], tiers := [] }

/-- Doc._update_header_xml: remember the header node and collect PROPERTY
children into the properties dict. -/
def Doc.updateHeaderXml (d : Doc) (node : XNode) (nodeIdx : Nat) : Doc :=
  { d with headerIdx := some nodeIdx
           properties :=
             (node.children.filter (fun c => c.tag == "PROPERTY")).foldl
               (fun acc p => dictInsert acc (p.get "NAME") p.text) d.properties }

def Doc.foldTimeslots (d : Doc) : List XNode → Except PyErr Doc
  | [] => .ok d
  | e :: es =>
    match d.addTimeslotXml e with
    | .error err => .error err
    | .ok (d2, _) => d2.foldTimeslots es

/-- One child of the document root, dispatched by tag as in
Doc._parse_root; unknown tags only warn. -/
def parseRootElem (d : Doc) (e : XNode) (i : Nat) : Except PyErr Doc :=
  if e.tag = "HEADER" then .ok (d.updateHeaderXml e i)
  else if e.tag = "TIME_ORDER" then d.foldTimeslots e.children
  else if e.tag = "TIER" then
    match d.addTierXml e i with
    | .error (err, _) => .error err
    | .ok (d2, _) => .ok d2
  else if e.tag = "LINGUISTIC_TYPE" then
    .ok { d with lingTypes := d.lingTypes ++ [ltFromXml e] }
  else if e.tag = "CONSTRAINT" then
    .ok { d with constraintList :=
            d.constraintList ++ [⟨e.get "DESCRIPTION", e.get "STEREOTYPE"⟩] }
  else if e.tag = "CONTROLLED_VOCABULARY" then
    match cvFromXml e with
    | .error err => .error err
    | .ok cv => .ok { d with vocabs := d.vocabs ++ [cv] }
  else if e.tag = "LICENSE" then
    .ok { d with licenses := d.licenses ++ [e.getD "LICENSE_URL" ""] }
  else if e.tag = "EXTERNAL_REF" then
    .ok { d with externalRefs :=
            d.externalRefs ++ [(e.get "EXT_REF_ID", e.get "TYPE", e.get "VALUE")] }
  else if e.tag = "LANGUAGE" then
    .ok { d with languages :=
            d.languages ++ [(e.getD "LANG_ID" "", e.getD "LANG_DEF" "", e.getD "LANG_LABEL" "")] }
  else if e.tag = "LOCALE" then
    .ok { d with locale := some ⟨e.get "COUNTRY_CODE", e.getD "LANGUAGE_CODE" "en"⟩ }
  else .ok d

def parseElems : List XNode → Nat → Doc → Except PyErr Doc
  | [], _, d => .ok d
  | e :: es, i, d =>
    match parseRootElem d e i with
    | .error err => .error err
    | .ok d2 => parseElems es (i + 1) d2

/-- The root-attribute metadata reads at the top of Doc._parse_root. -/
def parseRootMeta (d : Doc) (root : XNode) : Doc :=
  { d with author := root.get "AUTHOR", date := root.get "DATE"
           fileformat := root.get "FORMAT", version := root.get "VERSION" }

/-! ### Cross-reference resolution (Doc._resolve_structure) -/

/-- Phase: linguistic types resolve their controlled vocabulary reference
(a falsy reference is skipped; an unresolvable one leaves vocab None). -/
def resolveLingVocabs (d : Doc) : Doc :=
  { d with lingTypes := d.lingTypes.map (fun lt =>
      match lt.controlledVocabularyRef with
      | none => lt
      | some r =>
        if r = "" then lt
        else { lt with vocab := match d.getVocab (some r) with
                                | some _ => some r
                                | none => none }) }

/-- Register all annotations of tier ti into the global index. -/
def registerTierAnns (d : Doc) (ti : Nat) : Doc :=
  (d.tiers.getD ti default).annotations.foldl (fun acc a => acc.registerAnn a) d

def LingType.addTier (lt : LingType) (ti : Nat) : LingType :=
  { lt with tiers := lt.tiers ++ [ti] }

def ControlledVocab.addTier (cv : ControlledVocab) (ti : Nat) : ControlledVocab :=
  { cv with tiers := cv.tiers ++ [ti] }

def Tier.addChildIdx (t : Tier) (ci : Nat) : Tier :=
  { t with childrenIdx := t.childrenIdx ++ [ci] }

def Tier.withID (t : Tier) (v : String) : Tier :=
  { t with ID := some v }

def Tier.withParentRef (t : Tier) (v : String) : Tier :=
  { t with parentRef := some v }

def Tier.pushAnnotation (t : Tier) (a : Ann) : Tier :=
  { t with annotations := t.annotations ++ [a] }

def Tier.replaceLast (t : Tier) (a : Ann) : Tier :=
  { t with annotations := t.annotations.dropLast ++ [a] }

/-- Append tier ti to the tier list of linguistic type li. -/
def linkTierToType (d : Doc) (ti li : Nat) : Doc :=
  { d with lingTypes := d.lingTypes.set li ((d.lingTypes.getD li default).addTier ti) }

/-- Append tier ti to the tier list of the type's vocabulary, when any. -/
def linkTierToVocab (d : Doc) (ti : Nat) (vocab : Option String) : Doc :=
  if vocab.isSome then
    match d.getVocabIdx vocab with
    | some vi =>
      { d with vocabs := d.vocabs.set vi ((d.vocabs.getD vi default).addTier ti) }
    | none => d
  else d

/-- Append tier ti to the children of the tier its parentRef names; a
missing parent raises KeyError. -/
def linkTierToParent (d : Doc) (ti : Nat) (parentRef : Option String) : Except PyErr Doc :=
  match parentRef with
  | none => .ok d
  | some pr =>
    match d.getTier (some pr) with
    | none => .error .keyError
    | some pi =>
      .ok { d with tiers := d.tiers.set pi ((d.tiers.getD pi default).addChildIdx ti) }

/-- Phase: one tier of the structure-resolution loop: register its
annotations, register the tier on its linguistic type (missing type makes
the attribute access raise) and on the type's vocabulary, and append the
tier to its parent's children (missing parent raises KeyError). -/
def resolveTierStep (d : Doc) (ti : Nat) : Except PyErr Doc :=
  match (registerTierAnns d ti).getLingTypeIdx (d.tiers.getD ti default).typeRefID with
  | none => .error .attributeError
  | some li =>
    linkTierToParent
      (linkTierToVocab (linkTierToType (registerTierAnns d ti) ti li) ti
        ((registerTierAnns d ti).lingTypes.getD li default).vocab)
      ti (d.tiers.getD ti default).parentRef

def resolveTiersAux (d : Doc) : List Nat → Except PyErr Doc
  | [] => .ok d
  | ti :: rest =>
    match resolveTierStep d ti with
    | .error e => .error e
    | .ok d2 => resolveTiersAux d2 rest

/-- RefAnnotation.resolve succeeds for this annotation (a falsy ref_id is
not resolved at all). -/
def annRefOk (d : Doc) (a : Ann) : Bool :=
  match a.refID with
  | none => true
  | some r => r = "" || (d.annotation (some r)).isSome

/-- The effect of RefAnnotation.resolve on the record: resolvedTo is set to
the reference ID. -/
def resolveAnn : Ann → Ann
  | .time i f t v c => .time i f t v c
  | .ref i r res p v c =>
    match r with
    | none => .ref i r res p v c
    | some s => if s = "" then .ref i r res p v c else .ref i r (some s) p v c

/-- Phase: resolve every reference annotation against the global annotation
index; a missing target is "Corrupted ELAN file" and aborts the load.  The
annotations living in tier lists alias the registered objects, so they are
rewritten with the same resolution (exact for documents whose annotation IDs
are unique, i.e. whose index values are exactly the tier annotations). -/
def resolveRefs (d : Doc) : Except PyErr Doc :=
  if d.annMap.all (fun kv => annRefOk d kv.2) then
    .ok { d with
      annMap := d.annMap.map (fun kv => (kv.1, resolveAnn kv.2)),
      tiers := d.tiers.map (fun t => { t with annotations := t.annotations.map resolveAnn }) }
  else .error (.valueError "Missing annotation ID -- Corrupted ELAN file")

def resolveStructure (d : Doc) : Except PyErr Doc :=
  match resolveTiersAux (resolveLingVocabs d)
      (List.range (resolveLingVocabs d).tiers.length) with
  | .error e => .error e
  | .ok d2 => resolveRefs d2

/-! ### Parsing entry point (Doc.parse_eaf_stream) -/

/-- Doc() as __init__ leaves it, with the given DOM root stored. -/
def emptyDoc (root : XNode) : Doc :=
  { author := some "", date := none, fileformat := none, version := none
    properties := [], timeOrder := [], tiers := [], tierMap := some []
    annMap := [], lingTypes := [], constraintList := [], vocabs := []
    licenses := [], externalRefs := [], languages := [], locale := none
    headerIdx := none, xmlRoot := root }

/-- Doc.parse_eaf_stream: store the root, build the raw structure, then link
the parts together. -/
def parseDoc (root : XNode) : Except PyErr Doc :=
  match parseElems root.children 0 (parseRootMeta (emptyDoc root) root) with
  | .error e => .error e
  | .ok d1 => resolveStructure d1

/-! ### Serialization and derived views -/

/-- Doc.to_xml_bin: the byte encoding of the live DOM root (the third-party
XML codec is modelled as the identity at tree level). -/
def Doc.serialize (d : Doc) : XNode := d.xmlRoot

/-- TimeAnnotation.from_ts / RefAnnotation.from_ts: reference annotations
delegate to their resolved target (fuel bounds the Python recursion, which
only diverges on a reference cycle). -/
def Ann.fromTsAux (d : Doc) : Nat → Ann → Option TimeSlot
  | _, .time _ f _ _ _ => some f
  | 0, .ref _ _ _ _ _ _ => none
  | fuel + 1, .ref _ _ res _ _ _ =>
    match res with
    | none => none
    | some rid =>
      match d.annotation (some rid) with
      | none => none
      | some target => Ann.fromTsAux d fuel target

def Ann.toTsAux (d : Doc) : Nat → Ann → Option TimeSlot
  | _, .time _ _ t _ _ => some t
  | 0, .ref _ _ _ _ _ _ => none
  | fuel + 1, .ref _ _ res _ _ _ =>
    match res with
    | none => none
    | some rid =>
      match d.annotation (some rid) with
      | none => none
      | some target => Ann.toTsAux d fuel target

def Doc.annFromTs (d : Doc) (a : Ann) : Option TimeSlot :=
  a.fromTsAux d (d.annMap.length + 1)

def Doc.annToTs (d : Doc) (a : Ann) : Option TimeSlot :=
  a.toTsAux d (d.annMap.length + 1)

/-- One row of Doc.to_csv_rows at millisecond-value level: tier ID,
participant, from, to, duration and text (the Python float rendering of
equal values is equal, so seconds formatting is not modelled). -/
def Doc.rowOf (d : Doc) (t : Tier) (a : Ann) :
    Option String × String × Option Int × Option Int × Option Int × String :=
  let f := (d.annFromTs a).bind TimeSlot.value
  let g := (d.annToTs a).bind TimeSlot.value
  let dur : Option Int :=
    match a with
    | .time _ ft tt _ _ => some (tt.value.getD 0 - ft.value.getD 0)
    | .ref _ _ _ _ _ _ => none
  (t.ID, t.participant, f, g, dur, a.value)

/-- Doc.to_csv_rows: every annotation of every tier, in tier order then
annotation order. -/
def Doc.toRows (d : Doc) :
    List (Option String × String × Option Int × Option Int × Option Int × String) :=
  (d.tiers.map (fun t => t.annotations.map (d.rowOf t))).flatten

/-- The contents of the controlled vocabularies: IDs and ordered entries. -/
def Doc.vocabContents (d : Doc) :
    List (Option String × List (Option String × Option String × Option String)) :=
  d.vocabs.map (fun cv => (cv.ID, cv.entries.map (fun e => (e.ID, e.value, e.description))))

/-! ### Mutators -/

def optStrTruthy : Option String → Bool
  | none => false
  | some s => decide (s ≠ "")

def optListFalsy {α : Type} : Option (List α) → Bool
  | none => true
  | some l => l.isEmpty

def XNode.modifyFound (n : XNode) (t : String) (f : XNode → XNode) : XNode :=
  match n.findIdx t with
  | some i => n.modifyChild i f
  | none => n

def Doc.timeOrderKeys (d : Doc) : List String :=
  (dictKeys d.timeOrder).filterMap id

/-- The TIME_SLOT node Doc.new_timeslot builds: a freshly probed ts id and
the stringified value (a None value becomes the string "None"). -/
def tsNodeFor (d : Doc) (value : Option Int) : XNode :=
  ((XNode.mk "TIME_SLOT" [] none []).setAttr "TIME_SLOT_ID"
      (some (probeId "ts" d.timeOrderKeys (d.timeOrder.length + 1)))).setAttr
    "TIME_VALUE" (some (match value with | some i => intStr i | none => "None"))

/-- Append a node under root child toIdx (the TIME_ORDER element). -/
def Doc.domAppendAt (d : Doc) (toIdx : Nat) (node : XNode) : Doc :=
  { d with xmlRoot := d.xmlRoot.modifyChild toIdx (fun n => n.appendChild node) }

/-- Doc.new_timeslot: probe a fresh ts id, build the TIME_SLOT node, append
it under the first TIME_ORDER element (no such element raises), and register
the slot parsed back from the node (str followed by int round trips for
integer values; a None value becomes the string "None", which int rejects). -/
def Doc.newTimeslot (d : Doc) (value : Option Int) : Except (PyErr × Doc) (Doc × TimeSlot) :=
  match d.xmlRoot.findIdx "TIME_ORDER" with
  | none => .error (.attributeError, d)
  | some toIdx =>
    match (d.domAppendAt toIdx (tsNodeFor d value)).addTimeslotXml (tsNodeFor d value) with
    | .error e => .error (e, d.domAppendAt toIdx (tsNodeFor d value))
    | .ok (d2, ts) => .ok (d2, ts)

/-- One child of the rename loop: set the child's PARENT_REF attribute and
its parent_ref field to the new value. -/
def renameChildStep (value : String) (acc : Doc) (ci : Nat) : Doc :=
  { acc with
    xmlRoot := acc.xmlRoot.modifyChild (acc.tiers.getD ci default).nodeIdx
      (fun n => n.setAttr "PARENT_REF" (some value))
    tiers := acc.tiers.set ci ((acc.tiers.getD ci default).withParentRef value) }

/-- The mutation of a successful rename: update the tier's ID field, reset
the doc tier map, update the TIER_ID attribute, then run the child loop. -/
def Doc.renameCore (d : Doc) (ti : Nat) (value : String) : Doc :=
  (d.tiers.getD ti default).childrenIdx.foldl (renameChildStep value)
    { d with
      tiers := d.tiers.set ti ((d.tiers.getD ti default).withID value)
      tierMap := none
      xmlRoot := d.xmlRoot.modifyChild (d.tiers.getD ti default).nodeIdx
        (fun n => n.setAttr "TIER_ID" (some value)) }

/-- The Tier.ID setter: same value is a no-op, an empty value raises, else
update the field, reset the doc tier map, update the TIER_ID attribute and
push the new ID into every child tier's PARENT_REF (attribute and field). -/
def Doc.setTierID (d : Doc) (ti : Nat) (value : String) : Except (PyErr × Doc) Doc :=
  if some value = (d.tiers.getD ti default).ID then .ok d
  else if value = "" then .error (.valueError "Tier ID cannot be empty", d)
  else .ok (d.renameCore ti value)

/-- Insert a child at position i of the DOM root, shifting the recorded node
positions of the tiers (and the header) at or after i: this is what pointer
aliasing into the children list does in Python. -/
def Doc.insertRootChild (d : Doc) (i : Nat) (c : XNode) : Doc :=
  { d with
    xmlRoot := d.xmlRoot.insertChild i c
    tiers := d.tiers.map (fun t =>
      if i ≤ t.nodeIdx then { t with nodeIdx := t.nodeIdx + 1 } else t)
    headerIdx := d.headerIdx.map (fun h => if i ≤ h then h + 1 else h) }

/-- Append a new child index to the children list of tier pi. -/
def Doc.appendChildIdx (d : Doc) (pi newIdx : Nat) : Doc :=
  { d with tiers := d.tiers.set pi ((d.tiers.getD pi default).addChildIdx newIdx) }

/-- The TIER node Doc.new_tier builds: the template attributes, then the
sets in order (falsy optional attributes are not set). -/
def newTierNode (tierId typeId parentId participant annotator : Option String) : XNode :=
  let n0 := XNode.mk "TIER" [("LINGUISTIC_TYPE_REF", some ""), ("TIER_ID", some "")] none []
  let n1 := (n0.setAttr "TIER_ID" tierId).setAttr "LINGUISTIC_TYPE_REF" typeId
  let n2 := if optStrTruthy parentId then n1.setAttr "PARENT_REF" parentId else n1
  let n3 := if optStrTruthy participant then n2.setAttr "PARTICIPANT" participant else n2
  if optStrTruthy annotator then n3.setAttr "ANNOTATOR" annotator else n3

/-- The parent_tier local of Doc.new_tier. -/
def parentTierOf (d : Doc) (parentId : Option String) : Option Nat :=
  if parentId = none then none else d.getTier parentId

/-- The insertion index of Doc.new_tier: after the last TIER element, or
after TIME_ORDER when there are no tiers yet (None + 1 raises TypeError). -/
def newTierIdx (d : Doc) : Option Nat :=
  if d.tiers ≠ [] then d.xmlRoot.lastIdxOf "TIER" else d.xmlRoot.lastIdxOf "TIME_ORDER"

/-- Doc.new_tier. -/
def Doc.newTier (d : Doc) (tierId : Option String) (typeId : Option String)
    (parentId : Option String) (participant : Option String)
    (annotator : Option String) : Except (PyErr × Doc) (Doc × Nat) :=
  if tierId = none then .error (.valueError "Tier ID cannot be blank", d)
  else
    match d.getLingType typeId with
    | none => .error (.valueError "Unknown linguistic type ID was provided", d)
    | some typeObj =>
      if parentId ≠ none ∧ d.getTier parentId = none then
        .error (.valueError "Tier could not be found", d)
      else if typeObj.constraints ≠ none ∧ parentTierOf d parentId = none then
        .error (.valueError "Tiers with a constrained type require a parent tier.", d)
      else if parentTierOf d parentId ≠ none ∧
          (typeObj.constraints = none ∨ typeObj.constraints = some "") then
        .error (.valueError "Tiers without constraints must be root level.", d)
      else
        match newTierIdx d with
        | none => .error (.typeError, d)
        | some idx0 =>
          match (d.insertRootChild (idx0 + 1)
              (newTierNode tierId typeId parentId participant annotator)).addTierXml
              (newTierNode tierId typeId parentId participant annotator) (idx0 + 1) with
          | .error e => .error e
          | .ok (d2, tier) =>
            if parentTierOf d parentId ≠ none then
              match d2.getTier tier.parentRef with
              | none => .error (.keyError, d2)
              | some pi =>
                .ok (d2.appendChildIdx pi (d2.tiers.length - 1), d2.tiers.length - 1)
            else .ok (d2, d2.tiers.length - 1)

/-- Tier._validate_value: no bound vocabulary accepts anything; with one, a
non-member value raises and a member returns its CVEntry. -/
def Doc.validateValue (d : Doc) (t : Tier) (v : Option String) :
    Except (PyErr × Doc) (Option CVEntry) :=
  match d.vocabOf t with
  | none => .ok none
  | some vid =>
    match d.getVocab (some vid) with
    | none => .ok none
    | some cv =>
      if cv.hasValue v then .ok (some (cv.byValue v))
      else .error (.valueError "is not a valid value for tier", d)

/-- Append the annotation node under the tier's TIER element in the DOM. -/
def Doc.domAppendAnn (d : Doc) (ti : Nat) (annNode : XNode) : Doc :=
  { d with xmlRoot := d.xmlRoot.modifyChild (d.tiers.getD ti default).nodeIdx (fun n => n.appendChild annNode) }

/-- Append an annotation object to the tier's annotation list. -/
def Doc.pushAnn (d : Doc) (ti : Nat) (ann : Ann) : Doc :=
  { d with tiers := d.tiers.set ti (Tier.pushAnnotation (d.tiers.getD ti default) ann) }

/-- Append an ANNOTATION node to the tier's DOM element, parse it back
(Tier._add_annotation_xml) and append the object to the tier's annotation
list.  Registration in the global index is a separate step. -/
def Doc.appendAnnNode (d : Doc) (ti : Nat) (annNode : XNode) :
    Except (PyErr × Doc) (Doc × Ann) :=
  match annFromXml (d.domAppendAnn ti annNode) annNode with
  | .error e => .error (e, d.domAppendAnn ti annNode)
  | .ok ann => .ok ((d.domAppendAnn ti annNode).pushAnn ti ann, ann)

def alignableInner : XNode :=
  XNode.mk "ALIGNABLE_ANNOTATION"
    [("ANNOTATION_ID", some ""), ("TIME_SLOT_REF1", some ""), ("TIME_SLOT_REF2", some "")]
    none [XNode.mk "ANNOTATION_VALUE" [] none []]

def refInner : XNode :=
  XNode.mk "REF_ANNOTATION" [("ANNOTATION_ID", some ""), ("ANNOTATION_REF", some "")]
    none [XNode.mk "ANNOTATION_VALUE" [] none []]

def NewAnnResult : Type := Ann ⊕ List Ann

/-- The annotations a creation returned (one object or an ordered list). -/
def NewAnnResult.anns : NewAnnResult → List Ann
  | .inl a => [a]
  | .inr l => l

/-- The Included_In containment check of Tier.new_annotation: the new span
must lie within the referent annotation's span; a referent without a
resolved span makes the comparison with a float raise TypeError. -/
def includedInCheck (d : Doc) (st : Option String) (fromTs toTs : Option Int)
    (annRef : Option Ann) : Except (PyErr × Doc) Unit :=
  if st = some "Included_In" then
    match annRef with
    | none => .error (.attributeError, d)
    | some ra =>
      match fromTs, toTs with
      | some fv, some tv =>
        match d.annFromTs ra with
        | none => .error (.typeError, d)
        | some rf =>
          if rf.gtInt fv then
            .error (.valueError "New annotation must be contained within the referent annotation", d)
          else
            match d.annToTs ra with
            | none => .error (.typeError, d)
            | some rt =>
              if rt.ltInt tv then
                .error (.valueError "New annotation must be contained within the referent annotation", d)
              else .ok ()
      | _, _ => .error (.typeError, d)
  else .ok ()

/-- The ANNOTATION node of the None / Included_In branch, with the sets
applied in the Python order (CVE_REF, the slot references, the value text,
the annotation ID). -/
def alignableNodeA (cve : Option CVEntry) (ts1ID ts2ID : Option String)
    (value : Option String) (annId : String) : XNode :=
  let base := match cve with
    | some e => alignableInner.setAttr "CVE_REF" e.ID
    | none => alignableInner
  XNode.mk "ANNOTATION" [] none
    [(((base.setAttr "TIME_SLOT_REF1" ts1ID).setAttr "TIME_SLOT_REF2"
        ts2ID).modifyFound "ANNOTATION_VALUE" (fun vn => vn.setText value)).setAttr
      "ANNOTATION_ID" (some annId)]

/-- The None / Included_In branch of Tier.new_annotation: the containment
check, vocabulary validation, two slot allocations, one alignable
annotation appended and registered. -/
def newAnnAlignable (d : Doc) (ti : Nat) (st : Option String) (value : Option String)
    (fromTs toTs : Option Int) (annRef : Option Ann) :
    Except (PyErr × Doc) (Doc × NewAnnResult) :=
  match includedInCheck d st fromTs toTs annRef with
  | .error e => .error e
  | .ok _ =>
    match d.validateValue (d.tiers.getD ti default) value with
    | .error e => .error e
    | .ok cve =>
      match d.newTimeslot fromTs with
      | .error e => .error e
      | .ok (d1, ts1) =>
        match d1.newTimeslot toTs with
        | .error e => .error e
        | .ok (d2, ts2) =>
          match d2.appendAnnNode ti
              (alignableNodeA cve ts1.ID ts2.ID value d2.newAnnotationId) with
          | .error e => .error e
          | .ok (d3, ann) => .ok (d3.registerAnn ann, .inl ann)

/-- The ANNOTATION node of the Symbolic_Association branch (there the
ANNOTATION_REF set precedes the CVE_REF set). -/
def refNodeAssoc (cve : Option CVEntry) (annRefId : Option String)
    (value : Option String) (annId : String) : XNode :=
  let base := match cve with
    | some e => (refInner.setAttr "ANNOTATION_REF" annRefId).setAttr "CVE_REF" e.ID
    | none => refInner.setAttr "ANNOTATION_REF" annRefId
  XNode.mk "ANNOTATION" [] none
    [(base.modifyFound "ANNOTATION_VALUE" (fun vn => vn.setText value)).setAttr
      "ANNOTATION_ID" (some annId)]

/-- The Symbolic_Association branch. -/
def newAnnSymAssoc (d : Doc) (ti : Nat) (value : Option String)
    (annRefId : Option String) : Except (PyErr × Doc) (Doc × NewAnnResult) :=
  match d.validateValue (d.tiers.getD ti default) value with
  | .error e => .error e
  | .ok cve =>
    match d.appendAnnNode ti (refNodeAssoc cve annRefId value d.newAnnotationId) with
    | .error e => .error e
    | .ok (d1, ann) => .ok (d1.registerAnn ann, .inl ann)

def validateAll (d : Doc) (t : Tier) : List String → Except (PyErr × Doc) Unit
  | [] => .ok ()
  | v :: vs =>
    match d.validateValue t (some v) with
    | .error e => .error e
    | .ok _ => validateAll d t vs

/-- The in-place resolution of the just-appended annotation object: replace
the last element of the tier's annotation list. -/
def Doc.replaceLastAnn (d : Doc) (ti : Nat) (ann : Ann) : Doc :=
  { d with tiers := d.tiers.set ti ((d.tiers.getD ti default).replaceLast ann) }

/-- The chain-tail scan of the Symbolic_Subdivision branch: for each
existing annotation of the tier, ann.ref.ID is compared with the referent ID
(ann.ref is None for an unresolved or non-reference annotation, so the .ID
access raises); for a matching child with a truthy previous pointer the code
evaluates ann.previous.ID, but previous is a raw string, so that access
always raises AttributeError and the "Corrupted" ValueError is unreachable. -/
def symSubScan (d : Doc) (annRefId : Option String) :
    List Ann → Option String → List (Option String) → Except (PyErr × Doc) (Option String)
  | [], lastId, _ => .ok lastId
  | a :: rest, lastId, prevIds =>
    match a with
    | .time _ _ _ _ _ => .error (.attributeError, d)
    | .ref _ _ res _ _ _ =>
      match res with
      | none => .error (.attributeError, d)
      | some rid =>
        match d.annotation (some rid) with
        | none => .error (.attributeError, d)
        | some target =>
          if target.ID = annRefId then
            match a.previous with
            | some p =>
              if p = "" then symSubScan d annRefId rest a.ID (prevIds ++ [a.ID])
              else .error (.attributeError, d)
            | none => symSubScan d annRefId rest a.ID (prevIds ++ [a.ID])
          else symSubScan d annRefId rest lastId prevIds

/-- The ANNOTATION node of the Symbolic_Subdivision creation loop (CVE_REF
first, then ANNOTATION_REF, the value text, the annotation ID, and the
PREVIOUS_ANNOTATION pointer when a chain tail exists). -/
def refNodeSub (cve : Option CVEntry) (refAttr : Option String) (v : String)
    (annId : String) (lastId : Option String) : XNode :=
  let base := (((match cve with
    | some e => refInner.setAttr "CVE_REF" e.ID
    | none => refInner).setAttr "ANNOTATION_REF" refAttr).modifyFound
    "ANNOTATION_VALUE" (fun vn => vn.setText (some v))).setAttr "ANNOTATION_ID" (some annId)
  XNode.mk "ANNOTATION" [] none
    [match lastId with
     | some l => base.setAttr "PREVIOUS_ANNOTATION" (some l)
     | none => base]

/-- The creation loop of the Symbolic_Subdivision branch: each value becomes
a reference annotation pointing at the referent, with PREVIOUS_ANNOTATION
chaining from the scanned tail in creation order; each created object is
resolved and registered before the next ID is probed. -/
def symSubLoop (ti : Nat) (annRef : Ann) :
    Doc → List String → Option String → List Ann → Except (PyErr × Doc) (Doc × List Ann)
  | d, [], _, acc => .ok (d, acc)
  | d, v :: vs, lastId, acc =>
    match d.validateValue (d.tiers.getD ti default) (some v) with
    | .error e => .error e
    | .ok cve =>
      match d.appendAnnNode ti (refNodeSub cve annRef.ID v d.newAnnotationId lastId) with
      | .error e => .error e
      | .ok (d1, ann) =>
        match d1.annotation ann.refID with
        | none => .error (.valueError "Missing annotation ID -- Corrupted ELAN file", d1)
        | some _ =>
          symSubLoop ti annRef
            ((d1.replaceLastAnn ti (resolveAnn ann)).registerAnn (resolveAnn ann))
            vs (some d.newAnnotationId) (acc ++ [resolveAnn ann])

def insertSorted (x : Int) : List Int → List Int
  | [] => [x]
  | y :: ys => if x ≤ y then x :: y :: ys else y :: insertSorted x ys

/-- Python sorted() on a list of ints. -/
def sortInts (l : List Int) : List Int := l.foldr insertSorted []

/-- The per-point check of the Time_Subdivision branch: a missing point, or
one at or outside the referent's span, is rejected (comparing an int with a
None span raises TypeError). -/
def timeSubCheckLoop (d : Doc) (rf rt : Option TimeSlot) :
    List (Option Int) → Except (PyErr × Doc) Unit
  | [] => .ok ()
  | t :: rest =>
    match t with
    | none => .error (.valueError "Child annotations must be within the time range of referent annotation", d)
    | some tv =>
      match rf with
      | none => .error (.typeError, d)
      | some f =>
        if f.geInt tv then
          .error (.valueError "Child annotations must be within the time range of referent annotation", d)
        else
          match rt with
          | none => .error (.typeError, d)
          | some g =>
            if g.leInt tv then
              .error (.valueError "Child annotations must be within the time range of referent annotation", d)
            else timeSubCheckLoop d rf rt rest

/-- Allocate one fresh time slot per interior point, in sorted order. -/
def allocSlots : Doc → List Int → Except (PyErr × Doc) (Doc × List (Option String))
  | d, [] => .ok (d, [])
  | d, t :: rest =>
    match d.newTimeslot (some t) with
    | .error e => .error e
    | .ok (d1, ts) =>
      match allocSlots d1 rest with
      | .error e => .error e
      | .ok (d2, ids) => .ok (d2, ts.ID :: ids)

/-- The ANNOTATION node of the Time_Subdivision creation loop (CVE_REF
first, then the value text, the two slot references, the annotation ID). -/
def timeSubNode (cve : Option CVEntry) (v : String) (ref1 ref2 : Option String)
    (annId : String) : XNode :=
  XNode.mk "ANNOTATION" [] none
    [((((match cve with
        | some e => alignableInner.setAttr "CVE_REF" e.ID
        | none => alignableInner).modifyFound "ANNOTATION_VALUE"
        (fun vn => vn.setText (some v))).setAttr "TIME_SLOT_REF1" ref1).setAttr
      "TIME_SLOT_REF2" ref2).setAttr "ANNOTATION_ID" (some annId)]

/-- The creation loop of the Time_Subdivision branch: the idx-th value spans
the idx-th and (idx+1)-th boundary slots. -/
def timeSubLoop (ti : Nat) (tsIds : List (Option String)) :
    Doc → List String → Nat → List Ann → Except (PyErr × Doc) (Doc × List Ann)
  | d, [], _, acc => .ok (d, acc)
  | d, v :: vs, idx, acc =>
    match d.validateValue (d.tiers.getD ti default) (some v) with
    | .error e => .error e
    | .ok cve =>
      match d.appendAnnNode ti
          (timeSubNode cve v (tsIds.getD idx none) (tsIds.getD (idx + 1) none)
            d.newAnnotationId) with
      | .error e => .error e
      | .ok (d1, ann) => timeSubLoop ti tsIds (d1.registerAnn ann) vs (idx + 1) (acc ++ [ann])

/-- The boundary-slot construction of the Time_Subdivision branch: the
referent's from slot, then (for more than one value) one fresh slot per
sorted interior point. -/
def timeSubBoundaries (d : Doc) (tss : List (Option Int)) (vals : List String)
    (f : TimeSlot) : Except (PyErr × Doc) (Doc × List (Option String)) :=
  if vals.length > 1 then
    match allocSlots d (sortInts (tss.filterMap id)) with
    | .error e => .error e
    | .ok (d1, ids) => .ok (d1, f.ID :: ids)
  else .ok (d, [f.ID])

/-- The Time_Subdivision branch: mismatch check, per-point containment
checks (before any slot is allocated), boundary construction
referent.from :: sorted interior points :: referent.to (a referent without a
resolved span raises on the .ID access), then the creation loop.
Iterating timeslots=None raises TypeError before anything is touched. -/
def newAnnTimeSub (d : Doc) (ti : Nat) (vals : List String) (annRef : Ann)
    (timeslots : Option (List (Option Int))) : Except (PyErr × Doc) (Doc × NewAnnResult) :=
  if vals.length > 1 ∧
      (optListFalsy timeslots = true ∨ (timeslots.getD []).length ≠ vals.length - 1) then
    .error (.valueError "There is a mismatch between the number of annotation values and the number of provided timeslots", d)
  else
    match timeslots with
    | none => .error (.typeError, d)
    | some tss =>
      match timeSubCheckLoop d (d.annFromTs annRef) (d.annToTs annRef) tss with
      | .error e => .error e
      | .ok _ =>
        match d.annFromTs annRef with
        | none => .error (.attributeError, d)
        | some f =>
          match timeSubBoundaries d tss vals f with
          | .error e => .error e
          | .ok (d1, ids1) =>
            match d1.annToTs annRef with
            | none => .error (.attributeError, d1)
            | some g =>
              match timeSubLoop ti (ids1 ++ [g.ID]) d1 vals 0 [] with
              | .error e => .error e
              | .ok (d2, anns) => .ok (d2, .inr anns)

/-- The Symbolic_Subdivision branch: scan for the chain tail, then the
creation loop. -/
def newAnnSymSub (d : Doc) (ti : Nat) (vals : List String) (annRefId : Option String)
    (annRef : Ann) : Except (PyErr × Doc) (Doc × NewAnnResult) :=
  match symSubScan d annRefId (d.tiers.getD ti default).annotations none [] with
  | .error e => .error e
  | .ok lastId =>
    match symSubLoop ti annRef d vals lastId [] with
    | .error e => .error e
    | .ok (d1, anns) => .ok (d1, .inr anns)

/-- The ann_ref lookup at the head of Tier.new_annotation: only a truthy
referent ID is looked up. -/
def annRefLookup (d : Doc) (annRefId : Option String) : Option Ann :=
  if optStrTruthy annRefId then d.annotation annRefId else none

/-- The _values list of the subdivision branches. -/
def collectValues (value : Option String) (values : Option (List String)) : List String :=
  (match value with | some v => [v] | none => []) ++ values.getD []

/-- Tier.new_annotation: the stereotype-keyed dispatch with its
preconditions, exactly as the Python method orders them (the stereotype
access itself raises AttributeError when the tier's type is unknown). -/
def Tier.newAnnotation (d : Doc) (ti : Nat) (value : Option String)
    (fromTs toTs : Option Int) (annRefId : Option String)
    (values : Option (List String)) (timeslots : Option (List (Option Int))) :
    Except (PyErr × Doc) (Doc × NewAnnResult) :=
  match d.stereotypeOf (d.tiers.getD ti default) with
  | none => .error (.attributeError, d)
  | some st =>
    if (st = none ∨ st = some "Included_In") ∧ fromTs = none then
      .error (.valueError "From timestamp cannot be empty", d)
    else if (st = none ∨ st = some "Included_In") ∧ toTs = none then
      .error (.valueError "To timestamp cannot be empty", d)
    else if ¬(st = none ∨ st = some "Included_In") ∧ fromTs ≠ none then
      .error (.valueError "is not time-alignable (from_ts was provided)", d)
    else if ¬(st = none ∨ st = some "Included_In") ∧ toTs ≠ none then
      .error (.valueError "is not time-alignable (to_ts was provided)", d)
    else if optStrTruthy annRefId ∧ annRefLookup d annRefId = none then
      .error (.valueError "Referent annotation ID could not be found", d)
    else if st ≠ none ∧ annRefLookup d annRefId = none then
      .error (.valueError "Dependent tiers require a referent annotation to create new annotations", d)
    else if st = none ∨ st = some "" ∨ st = some "Included_In" then
      newAnnAlignable d ti st value fromTs toTs (annRefLookup d annRefId)
    else if st = some "Time_Subdivision" ∨ st = some "Symbolic_Subdivision" then
      match validateAll d (d.tiers.getD ti default) (collectValues value values) with
      | .error e => .error e
      | .ok _ =>
        match annRefLookup d annRefId with
        | none => .error (.attributeError, d)
        | some ra =>
          if st = some "Symbolic_Subdivision" then
            newAnnSymSub d ti (collectValues value values) annRefId ra
          else newAnnTimeSub d ti (collectValues value values) ra timeslots
    else if st = some "Symbolic_Association" then
      newAnnSymAssoc d ti value annRefId
    else .error (.notImplementedError, d)

/-! ### Concrete example fixtures (a small document exercised by the
witnesses, mirroring test/test_elan.py's test_add_annotation setup) -/

def exTypeNode (tid : String) (constr : Option String) (vocabRef : Option String) : XNode :=
  XNode.mk "LINGUISTIC_TYPE"
    ([("LINGUISTIC_TYPE_ID", some tid), ("TIME_ALIGNABLE", some "true")] ++
      (match constr with | some c => [("CONSTRAINTS", some c)] | none => []) ++
      (match vocabRef with | some v => [("CONTROLLED_VOCABULARY_REF", some v)] | none => []))
    none []

def exTierNode (tid ty : String) (parent : Option String) : XNode :=
  XNode.mk "TIER"
    ([("TIER_ID", some tid), ("LINGUISTIC_TYPE_REF", some ty)] ++
      (match parent with | some p => [("PARENT_REF", some p)] | none => [])) none []

def exCVNode : XNode :=
  XNode.mk "CONTROLLED_VOCABULARY" [("CV_ID", some "Languages")] none
    [XNode.mk "DESCRIPTION" [("LANG_REF", some "eng")] (some "languages") [],
     XNode.mk "CV_ENTRY_ML" [("CVE_ID", some "cveid-en")] none
       [XNode.mk "CVE_VALUE" [("LANG_REF", some "eng")] (some "en") []],
     XNode.mk "CV_ENTRY_ML" [("CVE_ID", some "cveid-jp")] none
       [XNode.mk "CVE_VALUE" [("LANG_REF", some "eng")] (some "jp") []]]

def exRoot : XNode :=
  XNode.mk "ANNOTATION_DOCUMENT"
    [("AUTHOR", some "anonymous"), ("DATE", some "2021-01-01"),
     ("FORMAT", some "3.0"), ("VERSION", some "3.0")] none
    [XNode.mk "HEADER" [] none [],
     XNode.mk "TIME_ORDER" [] none [],
     exTierNode "Utt" "lt-utt" none,
     exTierNode "Words" "lt-words" (some "Utt"),
     exTierNode "Tokens" "lt-tokens" (some "Utt"),
     exTierNode "Trans" "lt-trans" (some "Utt"),
     exTierNode "Phon" "lt-phon" (some "Utt"),
     exTierNode "Lang" "lt-lang" (some "Utt"),
     exTypeNode "lt-utt" none none,
     exTypeNode "lt-words" (some "Time_Subdivision") none,
     exTypeNode "lt-tokens" (some "Symbolic_Subdivision") none,
     exTypeNode "lt-trans" (some "Symbolic_Association") none,
     exTypeNode "lt-phon" (some "Included_In") none,
     exTypeNode "lt-lang" (some "Symbolic_Association") (some "Languages"),
     exCVNode]

/-- The parsed example document. -/
def exDoc : Doc :=
  match parseDoc exRoot with
  | .ok d => d
  | .error _ => default

/-- After one utterance annotation a1 over [1123, 2456] ms. -/
def exDoc1 : Doc :=
  match Tier.newAnnotation exDoc 0 (some "ano ringo tabetai") (some 1123) (some 2456)
      none none none with
  | .ok (d, _) => d
  | .error _ => default

/-- After a second utterance annotation a2 over [1000, 5000] ms. -/
def exDoc2 : Doc :=
  match Tier.newAnnotation exDoc1 0 (some "second utterance") (some 1000) (some 5000)
      none none none with
  | .ok (d, _) => d
  | .error _ => default

/-- After a first Symbolic_Subdivision batch on the Tokens tier (the
docstring example of Tier.new_annotation). -/
def exDoc3 : Doc :=
  match Tier.newAnnotation exDoc2 2 (some "Xin") none none (some "a1")
      (some ["chao"]) none with
  | .ok (d, _) => d
  | .error _ => default

/-- The error payload of a failed mutation (none for a success). -/
def mutErr {α : Type} : Except (PyErr × Doc) α → Option PyErr
  | .error (e, _) => some e
  | .ok _ => none

/-- The document carried by a failed mutation (none for a success). -/
def mutDocAfter {α : Type} : Except (PyErr × Doc) α → Option Doc
  | .error (_, d) => some d
  | .ok _ => none

/-- The success payload of a mutation (none for a failure). -/
def mutOk {α : Type} : Except (PyErr × Doc) α → Option α
  | .ok a => some a
  | .error _ => none

/-! ## Theorems

### Decimal numerals decode back -/

theorem toDigitsCore_shift (fuel : Nat) : ∀ (n : Nat) (ds : List Char),
    Nat.toDigitsCore 10 fuel n ds = Nat.toDigitsCore 10 fuel n [] ++ ds := by
  induction fuel with
  | zero => intro n ds; simp [Nat.toDigitsCore]
  | succ f ih =>
    intro n ds
    simp only [Nat.toDigitsCore]
    by_cases h : n / 10 = 0
    · simp [h]
    · simp only [if_neg h]
      rw [ih (n / 10) [Nat.digitChar (n % 10)], ih (n / 10) (Nat.digitChar (n % 10) :: ds)]
      simp

theorem digitChar_ok : ∀ d, d < 10 →
    isDigitChar (Nat.digitChar d) = true ∧ charVal (Nat.digitChar d) = d := by decide

theorem parseNatAux_append (l : List Char) : ∀ (c : Char) (acc : Nat),
    parseNatAux (l ++ [c]) acc =
      match parseNatAux l acc with
      | some n => if isDigitChar c then some (n * 10 + charVal c) else none
      | none => none := by
  induction l with
  | nil => intro c acc; simp [parseNatAux]
  | cons x xs ih =>
    intro c acc
    simp only [List.cons_append, parseNatAux]
    by_cases h : isDigitChar x
    · simp [h, ih]
    · simp [h]

theorem toDigitsCore_decode (fuel : Nat) : ∀ n, n < fuel →
    parseNatAux (Nat.toDigitsCore 10 fuel n []) 0 = some n := by
  induction fuel with
  | zero => intro n h; omega
  | succ f ih =>
    intro n h
    simp only [Nat.toDigitsCore]
    by_cases h0 : n / 10 = 0
    · have hn : n < 10 := by omega
      have hd := digitChar_ok n hn
      rw [if_pos h0, Nat.mod_eq_of_lt hn]
      simp [parseNatAux, hd.1, hd.2]
    · simp only [if_neg h0]
      rw [toDigitsCore_shift]
      rw [parseNatAux_append]
      have hlt : n / 10 < f := by
        have := Nat.div_lt_self (by omega : 0 < n) (by norm_num : 1 < 10)
        omega
      rw [ih (n / 10) hlt]
      have := digitChar_ok (n % 10) (Nat.mod_lt n (by omega))
      simp only [this.1, this.2, if_true]
      congr 1
      omega

theorem parseNatChars_toDigits (n : Nat) :
    parseNatChars (Nat.toDigits 10 n) = some n := by
  have hd : parseNatAux (Nat.toDigits 10 n) 0 = some n :=
    toDigitsCore_decode (n + 1) n (Nat.lt_succ_self n)
  have hne : Nat.toDigits 10 n ≠ [] := by
    simp only [Nat.toDigits, Nat.toDigitsCore]
    by_cases h0 : n / 10 = 0
    · simp [h0]
    · simp only [if_neg h0]
      rw [toDigitsCore_shift]
      simp
  cases hcs : Nat.toDigits 10 n with
  | nil => exact absurd hcs hne
  | cons c cs => rw [hcs] at hd; simpa [parseNatChars] using hd

/-- Decoding a printed natural number: the left inverse that makes Nat.repr
injective. -/
theorem parseNatChars_repr (n : Nat) : parseNatChars (Nat.repr n).data = some n := by
  have : (Nat.repr n).data = Nat.toDigits 10 n := rfl
  rw [this]
  exact parseNatChars_toDigits n

theorem natRepr_inj {m n : Nat} (h : Nat.repr m = Nat.repr n) : m = n := by
  have hm := parseNatChars_repr m
  have hn := parseNatChars_repr n
  rw [h] at hm
  rw [hm] at hn
  exact (Option.some.inj hn)

theorem repr_head_digit {n : Nat} {c : Char} {cs : List Char}
    (h : (Nat.repr n).data = c :: cs) : isDigitChar c = true := by
  have hp := parseNatChars_repr n
  rw [h] at hp
  simp only [parseNatChars, parseNatAux] at hp
  by_cases hd : isDigitChar c
  · exact hd
  · simp [hd] at hp

theorem parseIntM_intStr (i : Int) : parseIntM (intStr i) = some i := by
  by_cases hneg : i < 0
  · have hdata : (intStr i).data = '-' :: (Nat.repr i.natAbs).data := by
      simp only [intStr, if_pos hneg]
      rfl
    have hsome : parseIntM (intStr i) = some (-(i.natAbs : Int)) := by
      simp [parseIntM, hdata, parseNatChars_repr]
    rw [hsome]
    congr 1
    omega
  · have hdata : (intStr i).data = (Nat.repr i.natAbs).data := by
      simp only [intStr, if_neg hneg]
    cases hcs : (Nat.repr i.natAbs).data with
    | nil =>
      have hp := parseNatChars_repr i.natAbs
      rw [hcs] at hp
      simp [parseNatChars] at hp
    | cons c cs =>
      have hd := repr_head_digit hcs
      have hc1 : c ≠ '-' := by
        intro hc; rw [hc] at hd; simp [isDigitChar] at hd
      have hc2 : c ≠ '+' := by
        intro hc; rw [hc] at hd; simp [isDigitChar] at hd
      have hp := parseNatChars_repr i.natAbs
      rw [hcs] at hp
      have hsome : parseIntM (intStr i) = some ((i.natAbs : Nat) : Int) := by
        simp [parseIntM, hdata, hcs, hc1, hc2, hp]
      rw [hsome]
      congr 1
      omega

/-! ### The ID probe always yields a fresh ID -/

theorem preRepr_inj (pre : String) {m n : Nat}
    (h : pre ++ Nat.repr m = pre ++ Nat.repr n) : m = n := by
  have hdata : (pre ++ Nat.repr m).data = (pre ++ Nat.repr n).data := by rw [h]
  rw [String.data_append, String.data_append] at hdata
  have hrep : (Nat.repr m).data = (Nat.repr n).data :=
    List.append_cancel_left hdata
  have hm := parseNatChars_repr m
  rw [hrep, parseNatChars_repr] at hm
  exact (Option.some.inj hm).symm

theorem exists_free (pre : String) (taken : List String) (start : Nat) :
    ∃ i, i ≤ taken.length ∧ pre ++ Nat.repr (start + i) ∉ taken := by
  by_contra hcon
  push_neg at hcon
  have hinj : Function.Injective (fun i => pre ++ Nat.repr (start + i)) := by
    intro a b hab
    have := preRepr_inj pre hab
    omega
  have hnd : ((List.range (taken.length + 1)).map
      (fun i => pre ++ Nat.repr (start + i))).Nodup :=
    (List.nodup_range _).map hinj
  have hsub : ((List.range (taken.length + 1)).map
      (fun i => pre ++ Nat.repr (start + i))) ⊆ taken := by
    intro s hs
    obtain ⟨i, hi, rfl⟩ := List.mem_map.mp hs
    have hir := List.mem_range.mp hi
    exact hcon i (by omega)
  have hlen := (hnd.subperm hsub).length_le
  simp at hlen

theorem probeAux_spec (pre : String) (taken : List String) :
    ∀ (fuel seed : Nat), (∃ i, i < fuel ∧ pre ++ Nat.repr (seed + i) ∉ taken) →
    ∃ k, probeAux pre taken fuel seed = some k ∧ pre ++ Nat.repr k ∉ taken := by
  intro fuel
  induction fuel with
  | zero => intro seed ⟨i, hi, _⟩; omega
  | succ f ih =>
    intro seed ⟨i, hi, hfree⟩
    by_cases hmem : pre ++ Nat.repr seed ∈ taken
    · have hi0 : i ≠ 0 := by
        intro h0; rw [h0] at hfree; simp at hfree; exact hfree hmem
      have := ih (seed + 1) ⟨i - 1, by omega, by
        have : seed + 1 + (i - 1) = seed + i := by omega
        rw [this]; exact hfree⟩
      simpa [probeAux, hmem] using this
    · exact ⟨seed, by simp [probeAux, hmem], hmem⟩

theorem probeId_spec (pre : String) (taken : List String) (start : Nat) :
    probeId pre taken start ∉ taken := by
  obtain ⟨i, hile, hfree⟩ := exists_free pre taken start
  obtain ⟨k, hk, hkfree⟩ :=
    probeAux_spec pre taken (taken.length + 1) start ⟨i, by omega, hfree⟩
  simpa [probeId, hk] using hkfree

theorem probeId_shape (pre : String) (taken : List String) (start : Nat) :
    ∃ k, probeId pre taken start = pre ++ Nat.repr k := by
  unfold probeId
  cases probeAux pre taken (taken.length + 1) start with
  | none => exact ⟨0, rfl⟩
  | some k => exact ⟨k, rfl⟩

/-- The freshly probed annotation ID is not a key of the global index. -/
theorem newAnnotationId_fresh (d : Doc) :
    some d.newAnnotationId ∉ dictKeys d.annMap := by
  intro hmem
  have := probeId_spec "a" ((dictKeys d.annMap).filterMap id) (d.annMap.length + 1)
  exact this (List.mem_filterMap.mpr ⟨some (d.newAnnotationId), hmem, rfl⟩)

/-! ### Dictionary lemmas -/

theorem dictGet_insert_self {α β : Type} [DecidableEq α] (l : List (α × β)) (k : α) (v : β) :
    dictGet (dictInsert l k v) k = some v := by
  induction l with
  | nil => simp [dictInsert, dictGet]
  | cons p ps ih =>
    by_cases h : p.1 = k
    · simp [dictInsert, dictGet, h]
    · simp [dictInsert, dictGet, h, ih]

theorem dictGet_insert_ne {α β : Type} [DecidableEq α] (l : List (α × β)) (k k2 : α) (v : β)
    (h : k ≠ k2) : dictGet (dictInsert l k v) k2 = dictGet l k2 := by
  induction l with
  | nil => simp [dictInsert, dictGet, h]
  | cons p ps ih =>
    by_cases hp : p.1 = k
    · simp [dictInsert, dictGet, hp, h]
    · simp only [dictInsert, if_neg hp, dictGet]
      by_cases hp2 : p.1 = k2
      · simp [hp2]
      · simp [hp2, ih]

theorem dictKeys_insert_mem {α β : Type} [DecidableEq α] (l : List (α × β)) (k : α) (v : β)
    (h : k ∈ dictKeys l) : dictKeys (dictInsert l k v) = dictKeys l := by
  induction l with
  | nil => simp [dictKeys] at h
  | cons p ps ih =>
    by_cases hp : p.1 = k
    · simp [dictInsert, dictKeys, hp]
    · have hmem : k ∈ dictKeys ps := by
        simp [dictKeys] at h
        rcases h with h | h
        · exact absurd h.symm hp
        · simpa [dictKeys] using h
      have hrec := ih hmem
      simp only [dictKeys] at hrec
      simp [dictInsert, hp, dictKeys, hrec]

theorem dictInsert_not_mem {α β : Type} [DecidableEq α] (l : List (α × β)) (k : α) (v : β)
    (h : k ∉ dictKeys l) : dictInsert l k v = l ++ [(k, v)] := by
  induction l with
  | nil => simp [dictInsert]
  | cons p ps ih =>
    have hp : p.1 ≠ k := by
      intro he; exact h (by simp [dictKeys, he])
    have hps : k ∉ dictKeys ps := by
      intro hm; exact h (by simp [dictKeys] at hm ⊢; right; exact hm)
    simp [dictInsert, hp, ih hps]

theorem dictGet_none_of_not_mem {α β : Type} [DecidableEq α] (l : List (α × β)) (k : α)
    (h : k ∉ dictKeys l) : dictGet l k = none := by
  induction l with
  | nil => simp [dictGet]
  | cons p ps ih =>
    have hp : p.1 ≠ k := by
      intro he; exact h (by simp [dictKeys, he])
    have hps : k ∉ dictKeys ps := by
      intro hm; exact h (by simp [dictKeys] at hm ⊢; right; exact hm)
    simp [dictGet, hp, ih hps]

theorem mem_dictKeys_of_get {α β : Type} [DecidableEq α] {l : List (α × β)} {k : α} {v : β}
    (h : dictGet l k = some v) : k ∈ dictKeys l := by
  induction l with
  | nil => simp [dictGet] at h
  | cons p ps ih =>
    by_cases hp : p.1 = k
    · simp [dictKeys, hp]
    · simp only [dictGet, if_neg hp] at h
      simp [dictKeys]
      right
      simpa [dictKeys] using ih h

theorem dictKeys_nodup_insert {α β : Type} [DecidableEq α] (l : List (α × β)) (k : α) (v : β)
    (h : (dictKeys l).Nodup) : (dictKeys (dictInsert l k v)).Nodup := by
  by_cases hm : k ∈ dictKeys l
  · rw [dictKeys_insert_mem l k v hm]; exact h
  · rw [dictInsert_not_mem l k v hm]
    simp [dictKeys] at h ⊢
    exact List.Nodup.append h (by simp) (by
      intro a ha hb
      simp at hb
      subst hb
      exact hm (by simpa [dictKeys] using ha))

/-! ### Parsing stores the DOM root unchanged -/

theorem addTimeslotXml_xmlRoot {d d2 : Doc} {n : XNode} {ts : TimeSlot}
    (h : d.addTimeslotXml n = .ok (d2, ts)) : d2.xmlRoot = d.xmlRoot := by
  unfold Doc.addTimeslotXml at h
  split at h
  · exact Except.noConfusion h
  · rw [Except.ok.injEq, Prod.mk.injEq] at h
    obtain ⟨h1, _⟩ := h
    rw [← h1]

theorem foldTimeslots_xmlRoot : ∀ (es : List XNode) (d d2 : Doc),
    d.foldTimeslots es = .ok d2 → d2.xmlRoot = d.xmlRoot := by
  intro es
  induction es with
  | nil =>
    intro d d2 h
    unfold Doc.foldTimeslots at h
    rw [Except.ok.injEq] at h
    rw [← h]
  | cons e rest ih =>
    intro d d2 h
    unfold Doc.foldTimeslots at h
    split at h
    · exact Except.noConfusion h
    · rename_i dts heq
      rw [ih _ _ h, addTimeslotXml_xmlRoot heq]

theorem addTierXml_xmlRoot {d d2 : Doc} {n : XNode} {i : Nat} {t : Tier}
    (h : d.addTierXml n i = .ok (d2, t)) : d2.xmlRoot = d.xmlRoot := by
  unfold Doc.addTierXml at h
  split at h
  · exact Except.noConfusion h
  · split at h
    · exact Except.noConfusion h
    · rw [Except.ok.injEq, Prod.mk.injEq] at h
      obtain ⟨h1, _⟩ := h
      rw [← h1]
      rfl

theorem parseRootElem_xmlRoot {d d2 : Doc} {e : XNode} {i : Nat}
    (h : parseRootElem d e i = .ok d2) : d2.xmlRoot = d.xmlRoot := by
  delta parseRootElem at h
  by_cases h1 : e.tag = "HEADER"
  · rw [if_pos h1, Except.ok.injEq] at h
    rw [← h]
    rfl
  rw [if_neg h1] at h
  by_cases h2 : e.tag = "TIME_ORDER"
  · rw [if_pos h2] at h
    exact foldTimeslots_xmlRoot _ _ _ h
  rw [if_neg h2] at h
  by_cases h3 : e.tag = "TIER"
  · rw [if_pos h3] at h
    split at h
    · exact Except.noConfusion h
    · rename_i pr heq
      rw [Except.ok.injEq] at h
      rw [← h]
      exact addTierXml_xmlRoot heq
  rw [if_neg h3] at h
  by_cases h4 : e.tag = "LINGUISTIC_TYPE"
  · rw [if_pos h4, Except.ok.injEq] at h
    rw [← h]
  rw [if_neg h4] at h
  by_cases h5 : e.tag = "CONSTRAINT"
  · rw [if_pos h5, Except.ok.injEq] at h
    rw [← h]
  rw [if_neg h5] at h
  by_cases h6 : e.tag = "CONTROLLED_VOCABULARY"
  · rw [if_pos h6] at h
    split at h
    · exact Except.noConfusion h
    · rw [Except.ok.injEq] at h
      rw [← h]
  rw [if_neg h6] at h
  by_cases h7 : e.tag = "LICENSE"
  · rw [if_pos h7, Except.ok.injEq] at h
    rw [← h]
  rw [if_neg h7] at h
  by_cases h8 : e.tag = "EXTERNAL_REF"
  · rw [if_pos h8, Except.ok.injEq] at h
    rw [← h]
  rw [if_neg h8] at h
  by_cases h9 : e.tag = "LANGUAGE"
  · rw [if_pos h9, Except.ok.injEq] at h
    rw [← h]
  rw [if_neg h9] at h
  by_cases h10 : e.tag = "LOCALE"
  · rw [if_pos h10, Except.ok.injEq] at h
    rw [← h]
  rw [if_neg h10, Except.ok.injEq] at h
  rw [← h]

theorem parseElems_xmlRoot : ∀ (es : List XNode) (i : Nat) (d d2 : Doc),
    parseElems es i d = .ok d2 → d2.xmlRoot = d.xmlRoot := by
  intro es
  induction es with
  | nil =>
    intro i d d2 h
    unfold parseElems at h
    rw [Except.ok.injEq] at h
    rw [← h]
  | cons e rest ih =>
    intro i d d2 h
    unfold parseElems at h
    split at h
    · exact Except.noConfusion h
    · rename_i dnext heq
      rw [ih _ _ _ h, parseRootElem_xmlRoot heq]

theorem foldRegister_xmlRoot : ∀ (l : List Ann) (d : Doc),
    (l.foldl (fun acc a => acc.registerAnn a) d).xmlRoot = d.xmlRoot := by
  intro l
  induction l with
  | nil => intro d; rfl
  | cons a rest ih => intro d; rw [List.foldl_cons]; exact ih _

theorem registerTierAnns_xmlRoot (d : Doc) (ti : Nat) :
    (registerTierAnns d ti).xmlRoot = d.xmlRoot :=
  foldRegister_xmlRoot _ _

theorem linkTierToType_xmlRoot (d : Doc) (ti li : Nat) :
    (linkTierToType d ti li).xmlRoot = d.xmlRoot := rfl

theorem linkTierToVocab_xmlRoot (d : Doc) (ti : Nat) (vocab : Option String) :
    (linkTierToVocab d ti vocab).xmlRoot = d.xmlRoot := by
  unfold linkTierToVocab
  split
  · split
    · rfl
    · rfl
  · rfl

theorem linkTierToParent_xmlRoot {d d2 : Doc} {ti : Nat} {pr : Option String}
    (h : linkTierToParent d ti pr = .ok d2) : d2.xmlRoot = d.xmlRoot := by
  unfold linkTierToParent at h
  split at h
  · rw [Except.ok.injEq] at h; rw [← h]
  · split at h
    · exact Except.noConfusion h
    · rw [Except.ok.injEq] at h; rw [← h]

theorem resolveTierStep_xmlRoot {d d2 : Doc} {ti : Nat}
    (h : resolveTierStep d ti = .ok d2) : d2.xmlRoot = d.xmlRoot := by
  unfold resolveTierStep at h
  split at h
  · exact Except.noConfusion h
  · rw [linkTierToParent_xmlRoot h, linkTierToVocab_xmlRoot, linkTierToType_xmlRoot,
      registerTierAnns_xmlRoot]

theorem resolveTiersAux_xmlRoot : ∀ (l : List Nat) (d d2 : Doc),
    resolveTiersAux d l = .ok d2 → d2.xmlRoot = d.xmlRoot := by
  intro l
  induction l with
  | nil =>
    intro d d2 h
    unfold resolveTiersAux at h
    rw [Except.ok.injEq] at h
    rw [← h]
  | cons ti rest ih =>
    intro d d2 h
    unfold resolveTiersAux at h
    split at h
    · exact Except.noConfusion h
    · rename_i dnext heq
      rw [ih _ _ h, resolveTierStep_xmlRoot heq]

theorem resolveRefs_xmlRoot {d d2 : Doc} (h : resolveRefs d = .ok d2) :
    d2.xmlRoot = d.xmlRoot := by
  unfold resolveRefs at h
  split at h
  · rw [Except.ok.injEq] at h; rw [← h]
  · exact Except.noConfusion h

theorem resolveStructure_xmlRoot {d d2 : Doc} (h : resolveStructure d = .ok d2) :
    d2.xmlRoot = d.xmlRoot := by
  unfold resolveStructure at h
  split at h
  · exact Except.noConfusion h
  · rename_i dmid heq
    rw [resolveRefs_xmlRoot h, resolveTiersAux_xmlRoot _ _ _ heq]
    rfl

/-- parseDoc keeps the DOM root it was given: the whole pipeline only reads
the tree. -/
theorem parseDoc_xmlRoot {t : XNode} {d : Doc} (h : parseDoc t = .ok d) :
    d.xmlRoot = t := by
  unfold parseDoc at h
  split at h
  · exact Except.noConfusion h
  · rename_i dmid heq
    rw [resolveStructure_xmlRoot h, parseElems_xmlRoot _ _ _ _ heq]
    rfl

/-! ### C1: parse / serialize round trip -/

/-- C1: for every document obtained from a successful parse, serializing it
and parsing the result succeeds and yields a document whose flat row
projection (tier ID, participant, from, to, duration, text, in
tier-then-annotation order), metadata (author, date, format, version,
header properties) and controlled-vocabulary contents equal the original
document's.  The proof rests on parseDoc_xmlRoot: parsing only reads the
tree it stores, and serialization is the projection of that live tree. -/
theorem C1_serialize_parse_roundtrip (t : XNode) (d : Doc)
    (h : parseDoc t = Except.ok d) :
    ∃ d2, parseDoc (Doc.serialize d) = Except.ok d2 ∧
      d2.toRows = d.toRows ∧ d2.author = d.author ∧ d2.date = d.date ∧
      d2.fileformat = d.fileformat ∧ d2.version = d.version ∧
      d2.properties = d.properties ∧ d2.vocabContents = d.vocabContents := by
  refine ⟨d, ?_, rfl, rfl, rfl, rfl, rfl, rfl, rfl⟩
  rw [Doc.serialize, parseDoc_xmlRoot h]
  exact h

/-- C1 witness: the example document parses, and the round trip equations
hold for it by applying the theorem at that concrete input. -/
theorem C1_serialize_parse_roundtrip_witness :
    parseDoc exRoot = Except.ok exDoc ∧
    ∃ d2, parseDoc (Doc.serialize exDoc) = Except.ok d2 ∧
      d2.toRows = exDoc.toRows ∧ d2.author = exDoc.author ∧ d2.date = exDoc.date ∧
      d2.fileformat = exDoc.fileformat ∧ d2.version = exDoc.version ∧
      d2.properties = exDoc.properties ∧ d2.vocabContents = exDoc.vocabContents :=
  ⟨rfl, C1_serialize_parse_roundtrip exRoot exDoc rfl⟩

/-! ### C9: TimeSlot strict ordering of unanchored slots -/

/-- C9 counterexample: for two unanchored slots the claim says both strict
comparisons are false, but TimeSlot.__gt__ returns True whenever the right
operand is unanchored (its first branch fires before the left operand is
looked at); for the same reason an unanchored slot is not "later" than a
valued slot under >. -/
theorem C9_unanchored_counterexample :
    TimeSlot.gt ⟨some "ts1", none⟩ ⟨some "ts2", none⟩ = true ∧
    TimeSlot.gt ⟨some "ts1", none⟩ ⟨some "ts2", some 5⟩ = false :=
  ⟨rfl, rfl⟩

/-- C9 amended: an unanchored slot compares as earlier than any valued slot
under both strict operators (u < v is true, u > v is false, v > u is true,
v < u is false); and for two unanchored slots a < b is always false while
a > b is always true, because __gt__ tests the right operand first. -/
theorem C9_unanchored_ordering (id1 id2 : Option String) (v : Int) :
    TimeSlot.lt ⟨id1, none⟩ ⟨id2, some v⟩ = true ∧
    TimeSlot.gt ⟨id1, none⟩ ⟨id2, some v⟩ = false ∧
    TimeSlot.gt ⟨id2, some v⟩ ⟨id1, none⟩ = true ∧
    TimeSlot.lt ⟨id2, some v⟩ ⟨id1, none⟩ = false ∧
    TimeSlot.lt ⟨id1, none⟩ ⟨id2, none⟩ = false ∧
    TimeSlot.gt ⟨id1, none⟩ ⟨id2, none⟩ = true :=
  ⟨rfl, rfl, rfl, rfl, rfl, rfl⟩

/-! ### Facts about tier construction -/

theorem tierFromXml_fields {d : Doc} {n : XNode} {i : Nat} {tier : Tier}
    (h : tierFromXml d n i = .ok tier) :
    tier.ID = n.get "TIER_ID" ∧
    tier.parentRef = (match n.get "PARENT_REF" with
      | some s => if s = "" then none else some s
      | none => none) ∧
    tier.nodeIdx = i ∧ tier.childrenIdx = [] := by
  unfold tierFromXml at h
  split at h
  · exact Except.noConfusion h
  · rw [Except.ok.injEq] at h
    rw [← h]
    exact ⟨rfl, rfl, rfl, rfl⟩

theorem addTierXml_ok {d d2 : Doc} {n : XNode} {i : Nat} {tier : Tier}
    (h : d.addTierXml n i = .ok (d2, tier)) :
    tierFromXml d n i = .ok tier ∧
    d2.tiers = d.tiers ++ [tier] ∧
    dictGet d.tierMapNow tier.ID = none ∧
    d2.tierMap = some (dictInsert d.tierMapNow tier.ID d.tiers.length) ∧
    d2.annMap = d.annMap ∧ d2.timeOrder = d.timeOrder ∧
    d2.lingTypes = d.lingTypes ∧ d2.vocabs = d.vocabs := by
  unfold Doc.addTierXml at h
  split at h
  · exact Except.noConfusion h
  · rename_i tier2 heq
    split at h
    · exact Except.noConfusion h
    · rename_i hdup
      rw [Except.ok.injEq, Prod.mk.injEq] at h
      obtain ⟨h1, h2⟩ := h
      subst h2
      rw [← h1]
      refine ⟨heq, rfl, ?_, rfl, rfl, rfl, rfl, rfl⟩
      simp only [Doc.materializeTierMap, Doc.tierMapNow] at hdup ⊢
      exact Option.not_isSome_iff_eq_none.mp hdup

/-- With a falsy parent_id the built TIER node carries no PARENT_REF. -/
theorem newTierNode_no_parentRef (tierId typeId participant annotator : Option String)
    (parentId : Option String) (hp : optStrTruthy parentId = false) :
    (newTierNode tierId typeId parentId participant annotator).get "PARENT_REF" = none := by
  unfold newTierNode
  rw [hp]
  by_cases h3 : optStrTruthy participant
  · by_cases h4 : optStrTruthy annotator
    · simp [h3, h4, XNode.setAttr, XNode.get, dictInsert, dictGet]
    · simp [h3, h4, XNode.setAttr, XNode.get, dictInsert, dictGet]
  · by_cases h4 : optStrTruthy annotator
    · simp [h3, h4, XNode.setAttr, XNode.get, dictInsert, dictGet]
    · simp [h3, h4, XNode.setAttr, XNode.get, dictInsert, dictGet]

/-! ### C10: Doc.new_tier validation -/

/-- C10: Doc.new_tier raises and creates no tier (the document is exactly
the one before the call) when the linguistic type ID is unknown, when the
type carries a constraint stereotype but no parent tier ID is supplied, or
when the type carries no constraint (None or empty) but a parent tier ID is
supplied; consequently every tier successfully created with an unconstrained
type is a root tier (its stored parent reference is none). -/
theorem C10_new_tier_validation (d : Doc)
    (tierId typeId parentId participant annotator : Option String) :
    (tierId ≠ none → d.getLingType typeId = none →
      d.newTier tierId typeId parentId participant annotator =
        .error (.valueError "Unknown linguistic type ID was provided", d)) ∧
    (∀ typeObj, tierId ≠ none → d.getLingType typeId = some typeObj →
      typeObj.constraints ≠ none → parentId = none →
      d.newTier tierId typeId parentId participant annotator =
        .error (.valueError "Tiers with a constrained type require a parent tier.", d)) ∧
    (∀ typeObj p, tierId ≠ none → d.getLingType typeId = some typeObj →
      (typeObj.constraints = none ∨ typeObj.constraints = some "") → parentId = some p →
      ∃ msg, d.newTier tierId typeId parentId participant annotator =
        .error (.valueError msg, d)) ∧
    (∀ d2 ti typeObj,
      d.newTier tierId typeId parentId participant annotator = .ok (d2, ti) →
      d.getLingType typeId = some typeObj →
      (typeObj.constraints = none ∨ typeObj.constraints = some "") →
      (d2.tiers.getD ti default).parentRef = none) := by
  refine ⟨?_, ?_, ?_, ?_⟩
  · intro h1 hlt
    simp only [Doc.newTier, if_neg h1, hlt]
  · intro typeObj h1 hlt hc hp
    have hpt : parentTierOf d parentId = none := by simp [parentTierOf, hp]
    simp only [Doc.newTier, if_neg h1, hlt]
    rw [if_neg (by simp [hp] : ¬(parentId ≠ none ∧ d.getTier parentId = none))]
    rw [if_pos ⟨hc, hpt⟩]
  · intro typeObj p h1 hlt hc hp
    cases hg : d.getTier parentId with
    | none =>
      refine ⟨"Tier could not be found", ?_⟩
      simp only [Doc.newTier, if_neg h1, hlt]
      rw [if_pos ⟨by simp [hp], hg⟩]
    | some pidx =>
      have hpt : parentTierOf d parentId = some pidx := by
        unfold parentTierOf
        rw [if_neg (by simp [hp])]
        exact hg
      refine ⟨"Tiers without constraints must be root level.", ?_⟩
      simp only [Doc.newTier, if_neg h1, hlt]
      rw [if_neg (by simp [hg] : ¬(parentId ≠ none ∧ d.getTier parentId = none))]
      rw [if_neg (by simp [hpt, hc] : ¬(typeObj.constraints ≠ none ∧ parentTierOf d parentId = none))]
      rw [if_pos ⟨by simp [hpt], hc⟩]
  · intro d2 ti typeObj hok hlt hc
    by_cases h1 : tierId = none
    · simp only [Doc.newTier, if_pos h1] at hok
      exact Except.noConfusion hok
    · simp only [Doc.newTier, if_neg h1, hlt] at hok
      by_cases h2 : parentId ≠ none ∧ d.getTier parentId = none
      · rw [if_pos h2] at hok
        exact Except.noConfusion hok
      · rw [if_neg h2] at hok
        by_cases h3 : typeObj.constraints ≠ none ∧ parentTierOf d parentId = none
        · rw [if_pos h3] at hok
          exact Except.noConfusion hok
        · rw [if_neg h3] at hok
          by_cases h4 : parentTierOf d parentId ≠ none ∧
              (typeObj.constraints = none ∨ typeObj.constraints = some "")
          · rw [if_pos h4] at hok
            exact Except.noConfusion hok
          · rw [if_neg h4] at hok
            have hpt : parentTierOf d parentId = none := by
              by_contra hne
              exact h4 ⟨hne, hc⟩
            have hpid : parentId = none := by
              cases hpid : parentId with
              | none => rfl
              | some p =>
                exfalso
                rw [hpid] at hpt h2
                simp only [parentTierOf] at hpt
                rw [if_neg (by simp)] at hpt
                exact h2 ⟨by simp, hpt⟩
            split at hok
            · exact Except.noConfusion hok
            · rename_i idx0 hidx
              split at hok
              · exact Except.noConfusion hok
              · rename_i dmid tier heq
                rw [if_neg (by simp [hpt])] at hok
                rw [Except.ok.injEq, Prod.mk.injEq] at hok
                obtain ⟨hd2, hti⟩ := hok
                obtain ⟨hparse, htiers, _⟩ := addTierXml_ok heq
                obtain ⟨_, hpr, _⟩ := tierFromXml_fields hparse
                rw [← hd2, ← hti, htiers]
                have hlen : ((d.insertRootChild (idx0 + 1)
                    (newTierNode tierId typeId parentId participant annotator)).tiers ++
                      [tier]).length - 1 = (d.insertRootChild (idx0 + 1)
                    (newTierNode tierId typeId parentId participant annotator)).tiers.length := by
                  simp
                rw [hlen, List.getD_append_right _ _ _ _ (Nat.le_refl _)]
                simp only [Nat.sub_self, List.getD_cons_zero]
                rw [hpr]
                rw [newTierNode_no_parentRef tierId typeId participant annotator parentId
                  (by simp [hpid, optStrTruthy])]

/-! ### C2: atomicity of invalid mutation requests -/

/-- The tier-map fold only reads tier IDs, so mapping a function that
preserves IDs over the tier list does not change it. -/
theorem tierFoldl_map_nodeIdx (f : Tier → Tier) (hf : ∀ t, (f t).ID = t.ID) :
    ∀ (ts : List Tier) (st : Nat × List (Option String × Nat)),
      (ts.map f).foldl
        (fun (st : Nat × List (Option String × Nat)) t =>
          (st.1 + 1, dictInsert st.2 t.ID st.1)) st =
      ts.foldl
        (fun (st : Nat × List (Option String × Nat)) t =>
          (st.1 + 1, dictInsert st.2 t.ID st.1)) st := by
  intro ts
  induction ts with
  | nil => intro st; rfl
  | cons t rest ih =>
    intro st
    simp only [List.map_cons, List.foldl_cons, hf t]
    exact ih _

/-- Inserting a DOM child (which only shifts recorded node positions) does
not change the tier map. -/
theorem insertRootChild_tierMapNow (d : Doc) (i : Nat) (c : XNode) :
    (d.insertRootChild i c).tierMapNow = d.tierMapNow := by
  have htm : (d.insertRootChild i c).tierMap = d.tierMap := rfl
  have hts : (d.insertRootChild i c).tiers =
      d.tiers.map (fun t =>
        if i ≤ t.nodeIdx then { t with nodeIdx := t.nodeIdx + 1 } else t) := rfl
  unfold Doc.tierMapNow
  rw [htm, hts]
  cases hm : d.tierMap with
  | some m => rfl
  | none =>
    unfold buildTierMap
    exact congrArg Prod.snd (tierFoldl_map_nodeIdx _
      (fun t => by by_cases h : i ≤ t.nodeIdx <;> simp [h]) d.tiers (0, []))

/-- Materializing the tier map does not change its content. -/
theorem materializeTierMap_tierMapNow (d : Doc) :
    d.materializeTierMap.tierMapNow = d.tierMapNow := rfl

/-- The TIER node Doc.new_tier builds has no children. -/
theorem newTierNode_children (tierId typeId parentId participant annotator : Option String) :
    (newTierNode tierId typeId parentId participant annotator).children = [] := by
  unfold newTierNode
  by_cases h2 : optStrTruthy parentId <;> by_cases h3 : optStrTruthy participant <;>
    by_cases h4 : optStrTruthy annotator <;>
      simp [h2, h3, h4, XNode.setAttr, XNode.children]

/-- The TIER node Doc.new_tier builds carries the requested tier ID. -/
theorem newTierNode_get_TIER_ID (tierId typeId participant annotator : Option String) :
    (newTierNode tierId typeId none participant annotator).get "TIER_ID" = tierId := by
  unfold newTierNode
  rw [show optStrTruthy none = false from rfl]
  by_cases h3 : optStrTruthy participant <;> by_cases h4 : optStrTruthy annotator <;>
    simp [h3, h4, XNode.setAttr, XNode.get, dictInsert, dictGet]

/-- Doc._add_tier_xml on a childless node whose TIER_ID is already taken:
the duplicate check raises, with the tier map materialized but the tier
registries untouched. -/
theorem addTierXml_dup {d : Doc} {n : XNode} {i : Nat}
    (hch : n.children = [])
    (hdup : (dictGet d.tierMapNow (n.get "TIER_ID")).isSome = true) :
    d.addTierXml n i = .error (.valueError "Duplicated tier ID", d.materializeTierMap) := by
  unfold Doc.addTierXml tierFromXml
  rw [hch]
  simp only [tierAnnsFromXml]
  rw [if_pos (by rw [materializeTierMap_tierMapNow]; exact hdup)]

/-- C2 (amended): an invalid mutation request is rejected with an error, and
for an annotation-creation precondition failure, a vocabulary-membership
miss, or an empty rename the document carried by the error is exactly the
document before the call; but a duplicate tier ID is only detected after
Doc.new_tier has already inserted the new TIER element into the DOM, so the
error state keeps that extra child (and a materialized tier map of unchanged
content), breaking atomicity of the serialized form. -/
theorem C2_invalid_mutation_atomicity (d : Doc) (ti : Nat) :
    ((d.tiers.getD ti default).ID ≠ some "" →
      d.setTierID ti "" = .error (.valueError "Tier ID cannot be empty", d)) ∧
    (∀ st value toTs annRefId values timeslots,
      d.stereotypeOf (d.tiers.getD ti default) = some st →
      (st = none ∨ st = some "Included_In") →
      Tier.newAnnotation d ti value none toTs annRefId values timeslots =
        .error (.valueError "From timestamp cannot be empty", d)) ∧
    (∀ value annRefId vid cv,
      d.stereotypeOf (d.tiers.getD ti default) = some (some "Symbolic_Association") →
      d.vocabOf (d.tiers.getD ti default) = some vid →
      d.getVocab (some vid) = some cv →
      cv.hasValue value = false →
      annRefLookup d annRefId ≠ none →
      Tier.newAnnotation d ti value none none annRefId none none =
        .error (.valueError "is not a valid value for tier", d)) ∧
    (∀ tierId typeId participant annotator typeObj idx0,
      tierId ≠ none →
      d.getLingType typeId = some typeObj →
      typeObj.constraints = none →
      newTierIdx d = some idx0 →
      (d.getTier tierId).isSome = true →
      d.newTier tierId typeId none participant annotator =
        .error (.valueError "Duplicated tier ID",
          ((d.insertRootChild (idx0 + 1)
            (newTierNode tierId typeId none participant annotator)).materializeTierMap))) := by
  refine ⟨?_, ?_, ?_, ?_⟩
  · intro h
    unfold Doc.setTierID
    rw [if_neg (fun hc => h hc.symm), if_pos rfl]
  · intro st value toTs annRefId values timeslots hst h2
    simp only [Tier.newAnnotation, hst]
    rw [if_pos ⟨h2, trivial⟩]
  · intro value annRefId vid cv hst hv hg hval href
    simp only [Tier.newAnnotation, hst]
    rw [if_neg (by simp)]
    rw [if_neg (by simp)]
    rw [if_neg (by simp)]
    rw [if_neg (by simp)]
    rw [if_neg (fun hc => href hc.2)]
    rw [if_neg (fun hc => href hc.2)]
    rw [if_neg (by simp)]
    rw [if_neg (by simp)]
    rw [if_pos trivial]
    simp only [newAnnSymAssoc, Doc.validateValue, hv, hg, hval, Bool.false_eq_true, if_false]
  · intro tierId typeId participant annotator typeObj idx0 h1 hlt hcon hidx hdup
    have hdup2 : (dictGet (d.insertRootChild (idx0 + 1)
        (newTierNode tierId typeId none participant annotator)).tierMapNow
        ((newTierNode tierId typeId none participant annotator).get "TIER_ID")).isSome = true := by
      rw [insertRootChild_tierMapNow, newTierNode_get_TIER_ID]
      exact hdup
    simp only [Doc.newTier, if_neg h1, hlt]
    rw [if_neg (by simp : ¬((none : Option String) ≠ none ∧ d.getTier none = none))]
    rw [if_neg (by simp [hcon] :
      ¬(typeObj.constraints ≠ none ∧ parentTierOf d none = none))]
    rw [if_neg (by simp [parentTierOf] :
      ¬(parentTierOf d none ≠ none ∧
        (typeObj.constraints = none ∨ typeObj.constraints = some "")))]
    simp only [hidx]
    simp only [addTierXml_dup (newTierNode_children _ _ _ _ _) hdup2]

/-- C2 counterexample: creating a tier whose ID duplicates an existing one
on the example document raises, yet the document carried by the error
serializes with one more root child (the leaked TIER element) than before
the call. -/
theorem C2_dup_tier_dom_leak :
    mutErr (Doc.newTier exDoc (some "Utt") (some "lt-utt") none none none) =
      some (.valueError "Duplicated tier ID") ∧
    (mutDocAfter (Doc.newTier exDoc (some "Utt") (some "lt-utt") none none none)).map
        (fun d1 => d1.serialize.children.length) =
      some (exDoc.serialize.children.length + 1) := by
  exact ⟨rfl, rfl⟩

/-! ### C4: Time_Subdivision with a single value -/

/-- C4: on the Time_Subdivision tier of the example document, creating an
annotation with exactly one value and no interior time points (the default,
timeslots not supplied, modelled as none) does not succeed: iterating the
missing timeslot list raises TypeError with the document untouched.  Only
when the caller explicitly passes an empty timeslot list does the call
create the single alignable annotation spanning exactly the referent's from
and to slots. -/
theorem C4_time_subdivision_single_value :
    mutErr (Tier.newAnnotation exDoc1 1 (some "hello") none none (some "a1") none none) =
      some .typeError ∧
    mutDocAfter (Tier.newAnnotation exDoc1 1 (some "hello") none none (some "a1") none none) =
      some exDoc1 ∧
    (mutOk (Tier.newAnnotation exDoc1 1 (some "hello") none none (some "a1") none
        (some []))).map
        (fun p => p.2.anns.map (fun a =>
          (a.value, (p.1.annFromTs a).map TimeSlot.value,
            (p.1.annToTs a).map TimeSlot.value))) =
      some [("hello", some (some 1123), some (some 2456))] := ⟨rfl, rfl, rfl⟩

/-! ### C6: Symbolic_Subdivision chaining -/

/-- C6: on the Symbolic_Subdivision tier of the example document, a first
batch of values becomes reference annotations pointing at the referent,
chained through the previous pointer in creation order (the first link has
no predecessor).  But the chain-tail reconstruction scan evaluates
ann.previous.ID on the raw previous string, so a second creation on the
same referent raises AttributeError with the document untouched: the
"Corrupted Time_Subdivision tier" corruption report is unreachable. -/
theorem C6_symbolic_subdivision_chain :
    (mutOk (Tier.newAnnotation exDoc2 2 (some "Xin") none none (some "a1")
        (some ["chao"]) none)).map
        (fun p => p.2.anns.map (fun a => (a.ID, a.refID, a.previous))) =
      some [(some "a3", some "a1", none), (some "a4", some "a1", some "a3")] ∧
    mutErr (Tier.newAnnotation exDoc3 2 (some "toi") none none (some "a1") none none) =
      some .attributeError ∧
    mutDocAfter (Tier.newAnnotation exDoc3 2 (some "toi") none none (some "a1") none none) =
      some exDoc3 := ⟨rfl, rfl, rfl⟩

/-! ### C5: Included_In containment -/

set_option maxHeartbeats 2000000 in
/-- C5: on an Included_In tier, a creation whose span leaves the referent
annotation's span on either side is rejected with the containment error and
the document exactly unchanged; and on the example document (referent a2
spanning [1000, 5000] ms) the span [1200, 1500] is created — two time slots
allocated, one alignable annotation spanning them — while [500, 1500] is
rejected with the document unchanged. -/
theorem C5_included_in_containment (d : Doc) (ti : Nat) :
    (∀ value fv tv annRefId ra rf,
      d.stereotypeOf (d.tiers.getD ti default) = some (some "Included_In") →
      annRefLookup d annRefId = some ra →
      d.annFromTs ra = some rf →
      rf.gtInt fv = true →
      Tier.newAnnotation d ti value (some fv) (some tv) annRefId none none =
        .error (.valueError "New annotation must be contained within the referent annotation", d)) ∧
    (∀ value fv tv annRefId ra rf rt,
      d.stereotypeOf (d.tiers.getD ti default) = some (some "Included_In") →
      annRefLookup d annRefId = some ra →
      d.annFromTs ra = some rf →
      rf.gtInt fv = false →
      d.annToTs ra = some rt →
      rt.ltInt tv = true →
      Tier.newAnnotation d ti value (some fv) (some tv) annRefId none none =
        .error (.valueError "New annotation must be contained within the referent annotation", d)) ∧
    ((mutOk (Tier.newAnnotation exDoc2 4 (some "ph") (some 1200) (some 1500) (some "a2")
        none none)).map (fun p =>
          (p.2.anns.map (fun a =>
            (a.value, (p.1.annFromTs a).map TimeSlot.value,
              (p.1.annToTs a).map TimeSlot.value)),
           p.1.timeOrder.length)) =
      some ([("ph", some (some 1200), some (some 1500))], exDoc2.timeOrder.length + 2)) ∧
    (mutErr (Tier.newAnnotation exDoc2 4 (some "ph") (some 500) (some 1500) (some "a2")
        none none) =
      some (.valueError "New annotation must be contained within the referent annotation") ∧
    mutDocAfter (Tier.newAnnotation exDoc2 4 (some "ph") (some 500) (some 1500) (some "a2")
        none none) = some exDoc2) := by
  refine ⟨?_, ?_, by exact rfl, by exact rfl, by exact rfl⟩
  · intro value fv tv annRefId ra rf hst hr hf hgt
    simp only [Tier.newAnnotation, hst]
    rw [if_neg (by simp)]
    rw [if_neg (by simp)]
    rw [if_neg (by simp)]
    rw [if_neg (by simp)]
    rw [if_neg (fun hc => by rw [hr] at hc; exact Option.noConfusion hc.2)]
    rw [if_neg (fun hc => by rw [hr] at hc; exact Option.noConfusion hc.2)]
    rw [if_pos (Or.inr (Or.inr trivial))]
    simp only [newAnnAlignable, includedInCheck, hr, hf, hgt, if_pos trivial]
  · intro value fv tv annRefId ra rf rt hst hr hf hgt hg hlt
    simp only [Tier.newAnnotation, hst]
    rw [if_neg (by simp)]
    rw [if_neg (by simp)]
    rw [if_neg (by simp)]
    rw [if_neg (by simp)]
    rw [if_neg (fun hc => by rw [hr] at hc; exact Option.noConfusion hc.2)]
    rw [if_neg (fun hc => by rw [hr] at hc; exact Option.noConfusion hc.2)]
    rw [if_pos (Or.inr (Or.inr trivial))]
    simp only [newAnnAlignable, includedInCheck, hr, hf, hgt, hg, hlt,
      Bool.false_eq_true, if_false, if_pos trivial]

/-! ### C3: Time_Subdivision partition -/

/-- A tier bound to no vocabulary accepts every value list. -/
theorem validateAll_novocab (d : Doc) (t : Tier) (hv : d.vocabOf t = none) :
    ∀ vs, validateAll d t vs = .ok () := by
  intro vs
  induction vs with
  | nil => rfl
  | cons v rest ih =>
    unfold validateAll
    simp only [Doc.validateValue, hv]
    exact ih

/-- The per-point containment check rejects as soon as some interior point
is missing or not strictly inside the referent's span, with the document
exactly unchanged. -/
theorem timeSubCheckLoop_bad (d : Doc) (rf rt : TimeSlot) :
    ∀ (tss : List (Option Int)),
      (∃ u ∈ tss, u = none ∨
        ∃ tv, u = some tv ∧ (rf.geInt tv = true ∨ rt.leInt tv = true)) →
      timeSubCheckLoop d (some rf) (some rt) tss =
        .error (.valueError "Child annotations must be within the time range of referent annotation", d) := by
  intro tss
  induction tss with
  | nil => rintro ⟨u, hu, _⟩; cases hu
  | cons t rest ih =>
    rintro ⟨u, hu, hbad⟩
    cases t with
    | none => rfl
    | some tv =>
      simp only [timeSubCheckLoop]
      by_cases hge : rf.geInt tv = true
      · rw [if_pos hge]
      · rw [if_neg hge]
        by_cases hle : rt.leInt tv = true
        · rw [if_pos hle]
        · rw [if_neg hle]
          rcases List.mem_cons.mp hu with hh | hr2
          · exfalso
            rcases hbad with hn | ⟨tv2, he, hout⟩
            · rw [hh] at hn; exact Option.noConfusion hn
            · rw [hh] at he
              injection he with h2
              subst h2
              rcases hout with h | h
              · exact hge h
              · exact hle h
          · exact ih ⟨u, hr2, hbad⟩

set_option maxHeartbeats 4000000 in
/-- C3: on the Time_Subdivision tier of the example document, the referent
spanning [1123, 2456] ms with values ["ano", "ringo", "tabetai"] and
interior points 1500 and 2000 (supplied unsorted) yields exactly three
annotations spanning [1123, 1500], [1500, 2000] and [2000, 2456]; and in
general any interior point that is missing or not strictly inside the
referent's span makes the creation fail with the containment error and the
document exactly as before the call (no slot allocated). -/
theorem C3_time_subdivision_partition :
    ((mutOk (Tier.newAnnotation exDoc1 1 (some "ano") none none (some "a1")
        (some ["ringo", "tabetai"]) (some [some 2000, some 1500]))).map
        (fun p => p.2.anns.map (fun a =>
          (a.value, (p.1.annFromTs a).map TimeSlot.value,
            (p.1.annToTs a).map TimeSlot.value))) =
      some [("ano", some (some 1123), some (some 1500)),
            ("ringo", some (some 1500), some (some 2000)),
            ("tabetai", some (some 2000), some (some 2456))]) ∧
    (∀ d ti value values annRefId ra rf rt tss,
      d.stereotypeOf (d.tiers.getD ti default) = some (some "Time_Subdivision") →
      annRefLookup d annRefId = some ra →
      d.vocabOf (d.tiers.getD ti default) = none →
      (collectValues value values).length > 1 →
      tss.length = (collectValues value values).length - 1 →
      d.annFromTs ra = some rf →
      d.annToTs ra = some rt →
      (∃ u ∈ tss, u = none ∨
        ∃ tv, u = some tv ∧ (rf.geInt tv = true ∨ rt.leInt tv = true)) →
      Tier.newAnnotation d ti value none none annRefId values (some tss) =
        .error (.valueError "Child annotations must be within the time range of referent annotation", d)) := by
  refine ⟨rfl, ?_⟩
  intro d ti value values annRefId ra rf rt tss hst hr hv hlen1 hlen2 hf hg hbad
  simp only [Tier.newAnnotation, hst]
  rw [if_neg (by simp)]
  rw [if_neg (by simp)]
  rw [if_neg (by simp)]
  rw [if_neg (by simp)]
  rw [if_neg (fun hc => by rw [hr] at hc; exact Option.noConfusion hc.2)]
  rw [if_neg (fun hc => by rw [hr] at hc; exact Option.noConfusion hc.2)]
  rw [if_neg (by simp)]
  rw [if_pos (Or.inl trivial)]
  simp only [validateAll_novocab d (d.tiers.getD ti default) hv, hr]
  rw [if_neg (by simp)]
  simp only [newAnnTimeSub]
  rw [if_neg (fun hc => ?_)]
  · simp only [hf, hg]
    simp only [timeSubCheckLoop_bad d rf rt tss hbad]
  · rcases hc with ⟨h1, h2 | h3⟩
    · cases tss with
      | nil =>
        rw [List.length_nil] at hlen2
        omega
      | cons a l => simp [optListFalsy] at h2
    · exact h3 hlen2

/-! ### C7: tier rename -/

theorem getD_set_lt {α : Type} (l : List α) (i : Nat) (x dd : α) (h : i < l.length) :
    (l.set i x).getD i dd = x := by
  rw [List.getD_eq_getElem?_getD, List.getElem?_set_self h, Option.getD_some]

theorem getD_set_of_ne {α : Type} (l : List α) (i j : Nat) (x dd : α) (hij : i ≠ j) :
    (l.set i x).getD j dd = l.getD j dd := by
  rw [List.getD_eq_getElem?_getD, List.getElem?_set_ne hij, ← List.getD_eq_getElem?_getD]

/-- Replacing an entry by one with the same ID keeps every position's ID. -/
theorem getD_set_ID (l : List Tier) (i j : Nat) (x : Tier)
    (hx : x.ID = (l.getD i default).ID) :
    ((l.set i x).getD j default).ID = (l.getD j default).ID := by
  by_cases hij : i = j
  · subst hij
    by_cases hlt : i < l.length
    · rw [getD_set_lt _ _ _ _ hlt, hx]
    · rw [List.set_eq_of_length_le (Nat.le_of_not_lt hlt)]
  · rw [getD_set_of_ne _ _ _ _ _ hij]

theorem renameChildStep_tiers (v : String) (acc : Doc) (ci : Nat) :
    (renameChildStep v acc ci).tiers =
      acc.tiers.set ci ((acc.tiers.getD ci default).withParentRef v) := rfl

theorem renameChildStep_length (v : String) (acc : Doc) (ci : Nat) :
    (renameChildStep v acc ci).tiers.length = acc.tiers.length := by
  rw [renameChildStep_tiers, List.length_set]

theorem renameFold_tierMap (v : String) :
    ∀ (l : List Nat) (acc : Doc), (l.foldl (renameChildStep v) acc).tierMap = acc.tierMap
  | [], _ => rfl
  | c :: cs, acc => by
    rw [List.foldl_cons, renameFold_tierMap v cs _]
    rfl

theorem renameFold_length (v : String) :
    ∀ (l : List Nat) (acc : Doc),
      (l.foldl (renameChildStep v) acc).tiers.length = acc.tiers.length
  | [], _ => rfl
  | c :: cs, acc => by
    rw [List.foldl_cons, renameFold_length v cs _, renameChildStep_length]

theorem renameChildStep_ID (v : String) (acc : Doc) (ci j : Nat) :
    ((renameChildStep v acc ci).tiers.getD j default).ID =
      (acc.tiers.getD j default).ID := by
  rw [renameChildStep_tiers]
  exact getD_set_ID _ _ _ _ rfl

theorem renameFold_ID (v : String) :
    ∀ (l : List Nat) (acc : Doc) (j : Nat),
      ((l.foldl (renameChildStep v) acc).tiers.getD j default).ID =
        (acc.tiers.getD j default).ID
  | [], _, _ => rfl
  | c :: cs, acc, j => by
    rw [List.foldl_cons, renameFold_ID v cs _ j, renameChildStep_ID]

theorem renameChildStep_parentRef_keep (v : String) (acc : Doc) (ci c : Nat)
    (h : ((acc.tiers.getD c default)).parentRef = some v) :
    ((renameChildStep v acc ci).tiers.getD c default).parentRef = some v := by
  rw [renameChildStep_tiers]
  by_cases hij : ci = c
  · subst hij
    by_cases hlt : ci < acc.tiers.length
    · rw [getD_set_lt _ _ _ _ hlt]
      rfl
    · rw [List.set_eq_of_length_le (Nat.le_of_not_lt hlt)]
      exact h
  · rw [getD_set_of_ne _ _ _ _ _ hij]
    exact h

theorem renameFold_parentRef_keep (v : String) :
    ∀ (l : List Nat) (acc : Doc) (c : Nat),
      ((acc.tiers.getD c default)).parentRef = some v →
      ((l.foldl (renameChildStep v) acc).tiers.getD c default).parentRef = some v
  | [], _, _, h => h
  | e :: cs, acc, c, h => by
    rw [List.foldl_cons]
    exact renameFold_parentRef_keep v cs _ c (renameChildStep_parentRef_keep v acc e c h)

theorem renameChildStep_parentRef_self (v : String) (acc : Doc) (c : Nat)
    (h : c < acc.tiers.length) :
    ((renameChildStep v acc c).tiers.getD c default).parentRef = some v := by
  rw [renameChildStep_tiers, getD_set_lt _ _ _ _ h]
  rfl

theorem renameFold_children (v : String) :
    ∀ (l : List Nat) (acc : Doc) (c : Nat), c ∈ l → c < acc.tiers.length →
      ((l.foldl (renameChildStep v) acc).tiers.getD c default).parentRef = some v
  | [], _, _, h, _ => absurd h (List.not_mem_nil _)
  | e :: cs, acc, c, h, hlt => by
    rw [List.foldl_cons]
    rcases List.mem_cons.mp h with rfl | hmem
    · exact renameFold_parentRef_keep v cs _ c (renameChildStep_parentRef_self v acc c hlt)
    · exact renameFold_children v cs _ c hmem
        (by rw [renameChildStep_length]; exact hlt)

/-- No position of the tier list carries the key: the tier-map fold leaves
its lookup untouched. -/
theorem tierFold_absent :
    ∀ (ts : List Tier) (k : Option String) (n : Nat) (m : List (Option String × Nat)),
      (∀ j, j < ts.length → (ts.getD j default).ID ≠ k) →
      dictGet (ts.foldl (fun (st : Nat × List (Option String × Nat)) t =>
        (st.1 + 1, dictInsert st.2 t.ID st.1)) (n, m)).2 k = dictGet m k
  | [], _, _, _, _ => rfl
  | t :: rest, k, n, m, h => by
    rw [List.foldl_cons]
    rw [tierFold_absent rest k (n + 1) _
      (fun j hj => h (j + 1) (Nat.succ_lt_succ hj))]
    exact dictGet_insert_ne m t.ID k n (h 0 (Nat.succ_pos _))

/-- The key occurs at position i and never later: the tier-map fold resolves
it to the offset-adjusted index i. -/
theorem tierFold_last :
    ∀ (ts : List Tier) (k : Option String) (n : Nat) (m : List (Option String × Nat)) (i : Nat),
      i < ts.length →
      (ts.getD i default).ID = k →
      (∀ j, i < j → j < ts.length → (ts.getD j default).ID ≠ k) →
      dictGet (ts.foldl (fun (st : Nat × List (Option String × Nat)) t =>
        (st.1 + 1, dictInsert st.2 t.ID st.1)) (n, m)).2 k = some (n + i)
  | [], _, _, _, i, hi, _, _ => absurd hi (Nat.not_lt_zero i)
  | t :: rest, k, n, m, 0, _, hid, hafter => by
    rw [List.foldl_cons]
    rw [tierFold_absent rest k (n + 1) _
      (fun j hj => hafter (j + 1) (Nat.succ_pos j) (Nat.succ_lt_succ hj))]
    have ht : t.ID = k := hid
    rw [← ht, dictGet_insert_self]
    rfl
  | t :: rest, k, n, m, i + 1, hi, hid, hafter => by
    rw [List.foldl_cons]
    rw [tierFold_last rest k (n + 1) _ i (Nat.lt_of_succ_lt_succ hi) hid
      (fun j hj1 hj2 => hafter (j + 1) (Nat.succ_lt_succ hj1) (Nat.succ_lt_succ hj2))]
    congr 1
    omega

set_option maxHeartbeats 1000000 in
/-- C7: the Tier.ID setter rejects an empty ID with the document unchanged;
a successful rename updates the registry so the new ID resolves to the tier
while the old ID no longer resolves, and rewrites the stored parent
reference of every child tier to the new ID; concretely, renaming the root
tier of the example document propagates the new ID to all five children. -/
theorem C7_tier_rename_propagation (d : Doc) (ti : Nat) :
    ((d.tiers.getD ti default).ID ≠ some "" →
      d.setTierID ti "" = .error (.valueError "Tier ID cannot be empty", d)) ∧
    (∀ value old,
      value ≠ "" →
      value ≠ old →
      ti < d.tiers.length →
      (d.tiers.getD ti default).ID = some old →
      (∀ j, j < d.tiers.length → j ≠ ti → (d.tiers.getD j default).ID ≠ some old) →
      (∀ j, j < d.tiers.length → (d.tiers.getD j default).ID ≠ some value) →
      d.setTierID ti value = .ok (d.renameCore ti value) ∧
      (d.renameCore ti value).getTier (some value) = some ti ∧
      (d.renameCore ti value).getTier (some old) = none ∧
      (∀ ci ∈ (d.tiers.getD ti default).childrenIdx, ci < d.tiers.length →
        ((d.renameCore ti value).tiers.getD ci default).parentRef = some value)) ∧
    (exDoc.setTierID 0 "Utt2" = .ok (exDoc.renameCore 0 "Utt2") ∧
     (exDoc.renameCore 0 "Utt2").getTier (some "Utt2") = some 0 ∧
     (exDoc.renameCore 0 "Utt2").getTier (some "Utt") = none ∧
     (exDoc.renameCore 0 "Utt2").tiers.map Tier.parentRef =
       [none, some "Utt2", some "Utt2", some "Utt2", some "Utt2", some "Utt2"]) := by
  refine ⟨?_, ?_, by exact ⟨rfl, rfl, rfl, rfl⟩⟩
  · intro h
    unfold Doc.setTierID
    rw [if_neg (fun hc => h hc.symm), if_pos rfl]
  · intro value old hvE hvO hlt hold huniq hfresh
    have hID : ∀ j, ((d.renameCore ti value).tiers.getD j default).ID =
        ((d.tiers.set ti ((d.tiers.getD ti default).withID value)).getD j default).ID := by
      intro j
      unfold Doc.renameCore
      exact renameFold_ID value _ _ j
    have hlen2 : (d.renameCore ti value).tiers.length = d.tiers.length := by
      unfold Doc.renameCore
      rw [renameFold_length]
      show (d.tiers.set ti ((d.tiers.getD ti default).withID value)).length = d.tiers.length
      exact List.length_set _ _ _
    have htmn : (d.renameCore ti value).tierMapNow =
        buildTierMap (d.renameCore ti value).tiers := by
      have htm2 : (d.renameCore ti value).tierMap = none := by
        unfold Doc.renameCore
        rw [renameFold_tierMap]
      unfold Doc.tierMapNow
      rw [htm2]
    refine ⟨?_, ?_, ?_, ?_⟩
    · unfold Doc.setTierID
      rw [if_neg (fun hc => hvO (by rw [hold] at hc; exact Option.some.inj hc))]
      rw [if_neg hvE]
    · show dictGet (d.renameCore ti value).tierMapNow (some value) = some ti
      rw [htmn]
      unfold buildTierMap
      rw [tierFold_last (d.renameCore ti value).tiers (some value) 0 [] ti
        (by rw [hlen2]; exact hlt)
        (by rw [hID ti, getD_set_lt _ _ _ _ hlt]; rfl)
        (fun j hj1 hj2 => by
          rw [hID j, getD_set_of_ne _ _ _ _ _ (Nat.ne_of_lt hj1)]
          exact hfresh j (hlen2 ▸ hj2))]
      rw [Nat.zero_add]
    · show dictGet (d.renameCore ti value).tierMapNow (some old) = none
      rw [htmn]
      unfold buildTierMap
      rw [tierFold_absent (d.renameCore ti value).tiers (some old) 0 []
        (fun j hj => by
          rw [hID j]
          by_cases hji : j = ti
          · subst hji
            rw [getD_set_lt _ _ _ _ hlt]
            intro hc
            exact hvO (Option.some.inj hc)
          · rw [getD_set_of_ne _ _ _ _ _ (fun he => hji he.symm)]
            exact huniq j (hlen2 ▸ hj) hji)]
      rfl
    · intro ci hmem hci
      unfold Doc.renameCore
      exact renameFold_children value _ _ ci hmem (by
        show ci < (d.tiers.set ti ((d.tiers.getD ti default).withID value)).length
        rw [List.length_set]
        exact hci)

/-! ### C8: global annotation-ID uniqueness -/

theorem dictKeys_insert_self_mem {α β : Type} [DecidableEq α] (l : List (α × β)) (k : α)
    (v : β) : k ∈ dictKeys (dictInsert l k v) := by
  by_cases hm : k ∈ dictKeys l
  · rw [dictKeys_insert_mem l k v hm]; exact hm
  · rw [dictInsert_not_mem l k v hm]
    simp [dictKeys]

theorem dictKeys_insert_mono {α β : Type} [DecidableEq α] (l : List (α × β)) (k k2 : α)
    (v : β) (h : k ∈ dictKeys l) : k ∈ dictKeys (dictInsert l k2 v) := by
  by_cases hm : k2 ∈ dictKeys l
  · rw [dictKeys_insert_mem l k2 v hm]; exact h
  · rw [dictInsert_not_mem l k2 v hm]
    simp [dictKeys] at h ⊢
    left
    exact h

theorem dictInsert_length_not_mem {α β : Type} [DecidableEq α] (l : List (α × β)) (k : α)
    (v : β) (h : k ∉ dictKeys l) : (dictInsert l k v).length = l.length + 1 := by
  rw [dictInsert_not_mem l k v h, List.length_append]
  rfl

theorem resolveAnn_ID (a : Ann) : (resolveAnn a).ID = a.ID := by
  cases a with
  | time i f t v c => rfl
  | ref i r res p v c =>
    cases r with
    | none => rfl
    | some s =>
      by_cases hs : s = ""
      · simp [resolveAnn, hs]
      · simp [resolveAnn, hs, Ann.ID]

theorem get_setAttr_self (n : XNode) (k : String) (v : Option String) :
    (n.setAttr k v).get k = v := by
  unfold XNode.setAttr XNode.get
  rw [show (XNode.mk n.tag (dictInsert n.attrs k v) n.text n.children).attrs =
    dictInsert n.attrs k v from rfl]
  rw [dictGet_insert_self]

theorem get_setAttr_of_ne (n : XNode) (k k2 : String) (v : Option String) (h : k ≠ k2) :
    (n.setAttr k v).get k2 = n.get k2 := by
  unfold XNode.setAttr XNode.get
  rw [show (XNode.mk n.tag (dictInsert n.attrs k v) n.text n.children).attrs =
    dictInsert n.attrs k v from rfl]
  rw [dictGet_insert_ne _ _ _ _ h]

theorem tag_setAttr (n : XNode) (k : String) (v : Option String) :
    (n.setAttr k v).tag = n.tag := rfl

theorem tag_modifyFound (n : XNode) (t : String) (f : XNode → XNode) :
    (n.modifyFound t f).tag = n.tag := by
  unfold XNode.modifyFound
  cases n.findIdx t with
  | none => rfl
  | some i => rfl

theorem get_modifyFound (n : XNode) (t : String) (f : XNode → XNode) (k : String) :
    (n.modifyFound t f).get k = n.get k := by
  unfold XNode.modifyFound
  cases n.findIdx t with
  | none => rfl
  | some i => rfl

theorem find_single_child (tg : String) (c : XNode) (h : c.tag = tg) :
    (XNode.mk "ANNOTATION" [] none [c]).find tg = some c := by
  unfold XNode.find
  simp [XNode.children, List.find?, h]

theorem find_single_child_of_ne (tg tg2 : String) (c : XNode) (h : c.tag = tg2)
    (hne : tg2 ≠ tg) :
    (XNode.mk "ANNOTATION" [] none [c]).find tg = none := by
  unfold XNode.find
  simp only [XNode.children, List.find?_eq_none]
  intro x hx
  rw [List.mem_singleton.mp hx, h]
  simpa using hne

/-- A successfully parsed ALIGNABLE_ANNOTATION carries the inner element's
ANNOTATION_ID. -/
theorem annFromXml_ID_of_align {d : Doc} {n al : XNode} {ann : Ann}
    (hf : n.find "ALIGNABLE_ANNOTATION" = some al)
    (h : annFromXml d n = .ok ann) :
    ann.ID = al.get "ANNOTATION_ID" := by
  simp only [annFromXml, hf] at h
  cases h1 : dictGet d.timeOrder (al.get "TIME_SLOT_REF1") with
  | none => simp only [h1] at h; exact Except.noConfusion h
  | some fromTs =>
    simp only [h1] at h
    cases h2 : dictGet d.timeOrder (al.get "TIME_SLOT_REF2") with
    | none => simp only [h2] at h; exact Except.noConfusion h
    | some toTs =>
      simp only [h2] at h
      cases h3 : al.find "ANNOTATION_VALUE" with
      | none => simp only [h3] at h; exact Except.noConfusion h
      | some vn =>
        simp only [h3] at h
        rw [Except.ok.injEq] at h
        rw [← h]
        rfl

/-- A successfully parsed REF_ANNOTATION carries the inner element's
ANNOTATION_ID. -/
theorem annFromXml_ID_of_ref {d : Doc} {n rn : XNode} {ann : Ann}
    (hf : n.find "ALIGNABLE_ANNOTATION" = none)
    (hr : n.find "REF_ANNOTATION" = some rn)
    (h : annFromXml d n = .ok ann) :
    ann.ID = rn.get "ANNOTATION_ID" := by
  simp only [annFromXml, hf, hr] at h
  cases h3 : rn.find "ANNOTATION_VALUE" with
  | none => simp only [h3] at h; exact Except.noConfusion h
  | some vn =>
    simp only [h3] at h
    rw [Except.ok.injEq] at h
    rw [← h]
    rfl

/-- The alignable node of the None / Included_In branch parses back with the
probed annotation ID. -/
theorem alignableNodeA_ID {d : Doc} {cve : Option CVEntry} {t1 t2 v : Option String}
    {aid : String} {ann : Ann}
    (h : annFromXml d (alignableNodeA cve t1 t2 v aid) = .ok ann) :
    ann.ID = some aid := by
  cases cve with
  | none =>
    simp only [alignableNodeA] at h
    have hf := find_single_child "ALIGNABLE_ANNOTATION"
      ((((alignableInner.setAttr "TIME_SLOT_REF1" t1).setAttr "TIME_SLOT_REF2"
          t2).modifyFound "ANNOTATION_VALUE" (fun vn => vn.setText v)).setAttr
        "ANNOTATION_ID" (some aid)) rfl
    rw [annFromXml_ID_of_align hf h]
    exact get_setAttr_self _ _ _
  | some e =>
    simp only [alignableNodeA] at h
    have hf := find_single_child "ALIGNABLE_ANNOTATION"
      (((((alignableInner.setAttr "CVE_REF" e.ID).setAttr "TIME_SLOT_REF1" t1).setAttr
          "TIME_SLOT_REF2" t2).modifyFound "ANNOTATION_VALUE"
          (fun vn => vn.setText v)).setAttr "ANNOTATION_ID" (some aid)) rfl
    rw [annFromXml_ID_of_align hf h]
    exact get_setAttr_self _ _ _

/-- The Time_Subdivision loop node parses back with the probed annotation
ID. -/
theorem timeSubNode_ID {d : Doc} {cve : Option CVEntry} {v : String} {r1 r2 : Option String}
    {aid : String} {ann : Ann}
    (h : annFromXml d (timeSubNode cve v r1 r2 aid) = .ok ann) :
    ann.ID = some aid := by
  cases cve with
  | none =>
    simp only [timeSubNode] at h
    have hf := find_single_child "ALIGNABLE_ANNOTATION"
      ((((alignableInner.modifyFound "ANNOTATION_VALUE"
          (fun vn => vn.setText (some v))).setAttr "TIME_SLOT_REF1" r1).setAttr
        "TIME_SLOT_REF2" r2).setAttr "ANNOTATION_ID" (some aid)) rfl
    rw [annFromXml_ID_of_align hf h]
    exact get_setAttr_self _ _ _
  | some e =>
    simp only [timeSubNode] at h
    have hf := find_single_child "ALIGNABLE_ANNOTATION"
      (((((alignableInner.setAttr "CVE_REF" e.ID).modifyFound "ANNOTATION_VALUE"
          (fun vn => vn.setText (some v))).setAttr "TIME_SLOT_REF1" r1).setAttr
        "TIME_SLOT_REF2" r2).setAttr "ANNOTATION_ID" (some aid)) rfl
    rw [annFromXml_ID_of_align hf h]
    exact get_setAttr_self _ _ _

/-- The Symbolic_Association node parses back with the probed annotation
ID. -/
theorem refNodeAssoc_ID {d : Doc} {cve : Option CVEntry} {annRefId v : Option String}
    {aid : String} {ann : Ann}
    (h : annFromXml d (refNodeAssoc cve annRefId v aid) = .ok ann) :
    ann.ID = some aid := by
  cases cve with
  | none =>
    simp only [refNodeAssoc] at h
    have hn := find_single_child_of_ne "ALIGNABLE_ANNOTATION" "REF_ANNOTATION"
      (((refInner.setAttr "ANNOTATION_REF" annRefId).modifyFound "ANNOTATION_VALUE"
        (fun vn => vn.setText v)).setAttr "ANNOTATION_ID" (some aid)) rfl (by decide)
    have hf := find_single_child "REF_ANNOTATION"
      (((refInner.setAttr "ANNOTATION_REF" annRefId).modifyFound "ANNOTATION_VALUE"
        (fun vn => vn.setText v)).setAttr "ANNOTATION_ID" (some aid)) rfl
    rw [annFromXml_ID_of_ref hn hf h]
    exact get_setAttr_self _ _ _
  | some e =>
    simp only [refNodeAssoc] at h
    have hn := find_single_child_of_ne "ALIGNABLE_ANNOTATION" "REF_ANNOTATION"
      ((((refInner.setAttr "ANNOTATION_REF" annRefId).setAttr "CVE_REF" e.ID).modifyFound
        "ANNOTATION_VALUE" (fun vn => vn.setText v)).setAttr "ANNOTATION_ID" (some aid))
      rfl (by decide)
    have hf := find_single_child "REF_ANNOTATION"
      ((((refInner.setAttr "ANNOTATION_REF" annRefId).setAttr "CVE_REF" e.ID).modifyFound
        "ANNOTATION_VALUE" (fun vn => vn.setText v)).setAttr "ANNOTATION_ID" (some aid)) rfl
    rw [annFromXml_ID_of_ref hn hf h]
    exact get_setAttr_self _ _ _

/-- The Symbolic_Subdivision loop node parses back with the probed
annotation ID. -/
theorem refNodeSub_ID {d : Doc} {cve : Option CVEntry} {refAttr : Option String} {v : String}
    {aid : String} {lastId : Option String} {ann : Ann}
    (h : annFromXml d (refNodeSub cve refAttr v aid lastId) = .ok ann) :
    ann.ID = some aid := by
  cases lastId with
  | none =>
    cases cve with
    | none =>
      simp only [refNodeSub] at h
      have hn := find_single_child_of_ne "ALIGNABLE_ANNOTATION" "REF_ANNOTATION"
        (((refInner.setAttr "ANNOTATION_REF" refAttr).modifyFound "ANNOTATION_VALUE"
          (fun vn => vn.setText (some v))).setAttr "ANNOTATION_ID" (some aid)) rfl (by decide)
      have hf := find_single_child "REF_ANNOTATION"
        (((refInner.setAttr "ANNOTATION_REF" refAttr).modifyFound "ANNOTATION_VALUE"
          (fun vn => vn.setText (some v))).setAttr "ANNOTATION_ID" (some aid)) rfl
      rw [annFromXml_ID_of_ref hn hf h]
      exact get_setAttr_self _ _ _
    | some e =>
      simp only [refNodeSub] at h
      have hn := find_single_child_of_ne "ALIGNABLE_ANNOTATION" "REF_ANNOTATION"
        ((((refInner.setAttr "CVE_REF" e.ID).setAttr "ANNOTATION_REF" refAttr).modifyFound
          "ANNOTATION_VALUE" (fun vn => vn.setText (some v))).setAttr "ANNOTATION_ID"
          (some aid)) rfl (by decide)
      have hf := find_single_child "REF_ANNOTATION"
        ((((refInner.setAttr "CVE_REF" e.ID).setAttr "ANNOTATION_REF" refAttr).modifyFound
          "ANNOTATION_VALUE" (fun vn => vn.setText (some v))).setAttr "ANNOTATION_ID"
          (some aid)) rfl
      rw [annFromXml_ID_of_ref hn hf h]
      exact get_setAttr_self _ _ _
  | some l =>
    cases cve with
    | none =>
      simp only [refNodeSub] at h
      have hn := find_single_child_of_ne "ALIGNABLE_ANNOTATION" "REF_ANNOTATION"
        ((((refInner.setAttr "ANNOTATION_REF" refAttr).modifyFound "ANNOTATION_VALUE"
          (fun vn => vn.setText (some v))).setAttr "ANNOTATION_ID" (some aid)).setAttr
          "PREVIOUS_ANNOTATION" (some l)) rfl (by decide)
      have hf := find_single_child "REF_ANNOTATION"
        ((((refInner.setAttr "ANNOTATION_REF" refAttr).modifyFound "ANNOTATION_VALUE"
          (fun vn => vn.setText (some v))).setAttr "ANNOTATION_ID" (some aid)).setAttr
          "PREVIOUS_ANNOTATION" (some l)) rfl
      rw [annFromXml_ID_of_ref hn hf h]
      rw [get_setAttr_of_ne _ _ _ _ (by decide)]
      exact get_setAttr_self _ _ _
    | some e =>
      simp only [refNodeSub] at h
      have hn := find_single_child_of_ne "ALIGNABLE_ANNOTATION" "REF_ANNOTATION"
        (((((refInner.setAttr "CVE_REF" e.ID).setAttr "ANNOTATION_REF" refAttr).modifyFound
          "ANNOTATION_VALUE" (fun vn => vn.setText (some v))).setAttr "ANNOTATION_ID"
          (some aid)).setAttr "PREVIOUS_ANNOTATION" (some l)) rfl (by decide)
      have hf := find_single_child "REF_ANNOTATION"
        (((((refInner.setAttr "CVE_REF" e.ID).setAttr "ANNOTATION_REF" refAttr).modifyFound
          "ANNOTATION_VALUE" (fun vn => vn.setText (some v))).setAttr "ANNOTATION_ID"
          (some aid)).setAttr "PREVIOUS_ANNOTATION" (some l)) rfl
      rw [annFromXml_ID_of_ref hn hf h]
      rw [get_setAttr_of_ne _ _ _ _ (by decide)]
      exact get_setAttr_self _ _ _

/-- Appending an annotation node touches the DOM and the tier list but not
the global annotation index, and hands back the parsed annotation. -/
theorem appendAnnNode_ok {d : Doc} {ti : Nat} {node : XNode} {d1 : Doc} {ann : Ann}
    (h : d.appendAnnNode ti node = .ok (d1, ann)) :
    annFromXml (d.domAppendAnn ti node) node = .ok ann ∧ d1.annMap = d.annMap := by
  unfold Doc.appendAnnNode at h
  cases hp : annFromXml (d.domAppendAnn ti node) node with
  | error e => simp only [hp] at h; exact Except.noConfusion h
  | ok a =>
    simp only [hp] at h
    rw [Except.ok.injEq, Prod.mk.injEq] at h
    obtain ⟨hd, ha⟩ := h
    subst ha
    exact ⟨rfl, by rw [← hd]; rfl⟩

/-- Allocating a time slot never changes the global annotation index. -/
theorem newTimeslot_annMap {d : Doc} {v : Option Int} {d1 : Doc} {ts : TimeSlot}
    (h : d.newTimeslot v = .ok (d1, ts)) : d1.annMap = d.annMap := by
  unfold Doc.newTimeslot at h
  cases hf : d.xmlRoot.findIdx "TIME_ORDER" with
  | none => simp only [hf] at h; exact Except.noConfusion h
  | some toIdx =>
    simp only [hf] at h
    cases ha : (d.domAppendAt toIdx (tsNodeFor d v)).addTimeslotXml (tsNodeFor d v) with
    | error e => simp only [ha] at h; exact Except.noConfusion h
    | ok pr =>
      obtain ⟨d2, ts2⟩ := pr
      simp only [ha] at h
      rw [Except.ok.injEq, Prod.mk.injEq] at h
      obtain ⟨hd, hts⟩ := h
      unfold Doc.addTimeslotXml at ha
      cases htf : tsFromNode (tsNodeFor d v) with
      | error e => simp only [htf] at ha; exact Except.noConfusion ha
      | ok ts3 =>
        simp only [htf] at ha
        rw [Except.ok.injEq, Prod.mk.injEq] at ha
        obtain ⟨hd2, _⟩ := ha
        rw [← hd, ← hd2]
        rfl

/-- Allocating a whole list of slots never changes the index either. -/
theorem allocSlots_annMap :
    ∀ (l : List Int) (d : Doc) (d1 : Doc) (ids : List (Option String)),
      allocSlots d l = .ok (d1, ids) → d1.annMap = d.annMap
  | [], d, d1, ids, h => by
    unfold allocSlots at h
    rw [Except.ok.injEq, Prod.mk.injEq] at h
    rw [← h.1]
  | t :: rest, d, d1, ids, h => by
    unfold allocSlots at h
    cases h1 : d.newTimeslot (some t) with
    | error e => simp only [h1] at h; exact Except.noConfusion h
    | ok pr =>
      obtain ⟨da, ts⟩ := pr
      simp only [h1] at h
      cases h2 : allocSlots da rest with
      | error e => simp only [h2] at h; exact Except.noConfusion h
      | ok pr2 =>
        obtain ⟨db, ids2⟩ := pr2
        simp only [h2] at h
        rw [Except.ok.injEq, Prod.mk.injEq] at h
        rw [← h.1, allocSlots_annMap rest da db ids2 h2, newTimeslot_annMap h1]

/-- Registering an annotation with a fresh ID grows the index by one entry,
keeps key uniqueness, and enters the ID. -/
theorem registerAnn_fresh (d : Doc) (a : Ann) (h : a.ID ∉ dictKeys d.annMap) :
    (d.registerAnn a).annMap.length = d.annMap.length + 1 ∧
    a.ID ∈ dictKeys (d.registerAnn a).annMap := by
  unfold Doc.registerAnn
  exact ⟨dictInsert_length_not_mem _ _ _ h, dictKeys_insert_self_mem _ _ _⟩

/-- The probed annotation ID always has the decimal shape a1, a2, ... -/
theorem newAnnotationId_shape (d : Doc) : ∃ k, d.newAnnotationId = "a" ++ Nat.repr k := by
  unfold Doc.newAnnotationId
  exact probeId_shape "a" _ _

/-- Each Symbolic_Subdivision loop iteration registers one annotation under
a freshly probed ID: the index grows by exactly the number of created
annotations, key uniqueness and existing keys are preserved, and every
created annotation is registered under an ID of shape a1, a2, ... -/
theorem symSubLoop_spec (ti : Nat) (annRef : Ann) :
    ∀ (vs : List String) (d : Doc) (lastId : Option String) (acc : List Ann)
      (d2 : Doc) (anns : List Ann),
      symSubLoop ti annRef d vs lastId acc = .ok (d2, anns) →
      ∃ newA, anns = acc ++ newA ∧
        d2.annMap.length = d.annMap.length + newA.length ∧
        ((dictKeys d.annMap).Nodup → (dictKeys d2.annMap).Nodup) ∧
        (∀ k, k ∈ dictKeys d.annMap → k ∈ dictKeys d2.annMap) ∧
        (∀ a ∈ newA, a.ID ∈ dictKeys d2.annMap ∧ ∃ n, a.ID = some ("a" ++ Nat.repr n))
  | [], d, lastId, acc, d2, anns, h => by
    unfold symSubLoop at h
    rw [Except.ok.injEq, Prod.mk.injEq] at h
    obtain ⟨hd, ha⟩ := h
    subst hd
    subst ha
    exact ⟨[], by simp, by simp, fun hn => hn, fun k hk => hk, by simp⟩
  | v :: vs, d, lastId, acc, d2, anns, h => by
    unfold symSubLoop at h
    cases hv : d.validateValue (d.tiers.getD ti default) (some v) with
    | error e => simp only [hv] at h; exact Except.noConfusion h
    | ok cve =>
      simp only [hv] at h
      cases hap : d.appendAnnNode ti (refNodeSub cve annRef.ID v d.newAnnotationId lastId) with
      | error e => simp only [hap] at h; exact Except.noConfusion h
      | ok pr =>
        obtain ⟨d1, ann⟩ := pr
        simp only [hap] at h
        cases hlook : d1.annotation ann.refID with
        | none => simp only [hlook] at h; exact Except.noConfusion h
        | some target =>
          simp only [hlook] at h
          obtain ⟨hparse, hmap⟩ := appendAnnNode_ok hap
          have annID : ann.ID = some d.newAnnotationId := refNodeSub_ID hparse
          have hreg : ((d1.replaceLastAnn ti (resolveAnn ann)).registerAnn
              (resolveAnn ann)).annMap =
              dictInsert d1.annMap (resolveAnn ann).ID (resolveAnn ann) := rfl
          have hrid : (resolveAnn ann).ID = some d.newAnnotationId := by
            rw [resolveAnn_ID, annID]
          have hfresh : (resolveAnn ann).ID ∉ dictKeys d1.annMap := by
            rw [hrid, hmap]
            exact newAnnotationId_fresh d
          obtain ⟨newA2, hanns, hlen, hnodup, hmono, hregd⟩ :=
            symSubLoop_spec ti annRef vs _ _ _ d2 anns h
          refine ⟨resolveAnn ann :: newA2, ?_, ?_, ?_, ?_, ?_⟩
          · rw [hanns, List.append_assoc, List.singleton_append]
          · rw [hlen, hreg, dictInsert_length_not_mem _ _ _ hfresh, hmap, List.length_cons]
            omega
          · intro hn
            refine hnodup ?_
            rw [hreg]
            exact dictKeys_nodup_insert _ _ _ (hmap ▸ hn)
          · intro k hk
            refine hmono k ?_
            rw [hreg]
            exact dictKeys_insert_mono _ _ _ _ (hmap ▸ hk)
          · intro a ha
            rcases List.mem_cons.mp ha with rfl | ha2
            · refine ⟨hmono _ ?_, ?_⟩
              · rw [hreg]
                exact dictKeys_insert_self_mem _ _ _
              · rw [hrid]
                obtain ⟨n, hn⟩ := newAnnotationId_shape d
                exact ⟨n, by rw [hn]⟩
            · exact hregd a ha2

/-- Each Time_Subdivision loop iteration registers one annotation under a
freshly probed ID. -/
theorem timeSubLoop_spec (ti : Nat) (tsIds : List (Option String)) :
    ∀ (vs : List String) (d : Doc) (idx : Nat) (acc : List Ann)
      (d2 : Doc) (anns : List Ann),
      timeSubLoop ti tsIds d vs idx acc = .ok (d2, anns) →
      ∃ newA, anns = acc ++ newA ∧
        d2.annMap.length = d.annMap.length + newA.length ∧
        ((dictKeys d.annMap).Nodup → (dictKeys d2.annMap).Nodup) ∧
        (∀ k, k ∈ dictKeys d.annMap → k ∈ dictKeys d2.annMap) ∧
        (∀ a ∈ newA, a.ID ∈ dictKeys d2.annMap ∧ ∃ n, a.ID = some ("a" ++ Nat.repr n))
  | [], d, idx, acc, d2, anns, h => by
    unfold timeSubLoop at h
    rw [Except.ok.injEq, Prod.mk.injEq] at h
    obtain ⟨hd, ha⟩ := h
    subst hd
    subst ha
    exact ⟨[], by simp, by simp, fun hn => hn, fun k hk => hk, by simp⟩
  | v :: vs, d, idx, acc, d2, anns, h => by
    unfold timeSubLoop at h
    cases hv : d.validateValue (d.tiers.getD ti default) (some v) with
    | error e => simp only [hv] at h; exact Except.noConfusion h
    | ok cve =>
      simp only [hv] at h
      cases hap : d.appendAnnNode ti
          (timeSubNode cve v (tsIds.getD idx none) (tsIds.getD (idx + 1) none)
            d.newAnnotationId) with
      | error e => simp only [hap] at h; exact Except.noConfusion h
      | ok pr =>
        obtain ⟨d1, ann⟩ := pr
        simp only [hap] at h
        obtain ⟨hparse, hmap⟩ := appendAnnNode_ok hap
        have annID : ann.ID = some d.newAnnotationId := timeSubNode_ID hparse
        have hreg : (d1.registerAnn ann).annMap =
            dictInsert d1.annMap ann.ID ann := rfl
        have hfresh : ann.ID ∉ dictKeys d1.annMap := by
          rw [annID, hmap]
          exact newAnnotationId_fresh d
        obtain ⟨newA2, hanns, hlen, hnodup, hmono, hregd⟩ :=
          timeSubLoop_spec ti tsIds vs _ _ _ d2 anns h
        refine ⟨ann :: newA2, ?_, ?_, ?_, ?_, ?_⟩
        · rw [hanns, List.append_assoc, List.singleton_append]
        · rw [hlen, hreg, dictInsert_length_not_mem _ _ _ hfresh, hmap, List.length_cons]
          omega
        · intro hn
          refine hnodup ?_
          rw [hreg]
          exact dictKeys_nodup_insert _ _ _ (hmap ▸ hn)
        · intro k hk
          refine hmono k ?_
          rw [hreg]
          exact dictKeys_insert_mono _ _ _ _ (hmap ▸ hk)
        · intro a ha
          rcases List.mem_cons.mp ha with rfl | ha2
          · refine ⟨hmono _ ?_, ?_⟩
            · rw [hreg]
              exact dictKeys_insert_self_mem _ _ _
            · rw [annID]
              obtain ⟨n, hn⟩ := newAnnotationId_shape d
              exact ⟨n, by rw [hn]⟩
          · exact hregd a ha2

theorem timeSubBoundaries_annMap {d : Doc} {tss : List (Option Int)} {vals : List String}
    {f : TimeSlot} {d1 : Doc} {ids : List (Option String)}
    (h : timeSubBoundaries d tss vals f = .ok (d1, ids)) : d1.annMap = d.annMap := by
  unfold timeSubBoundaries at h
  by_cases hl : vals.length > 1
  · rw [if_pos hl] at h
    cases ha : allocSlots d (sortInts (tss.filterMap id)) with
    | error e => simp only [ha] at h; exact Except.noConfusion h
    | ok pr =>
      obtain ⟨da, ids2⟩ := pr
      simp only [ha] at h
      rw [Except.ok.injEq, Prod.mk.injEq] at h
      rw [← h.1]
      exact allocSlots_annMap _ d da ids2 ha
  · rw [if_neg hl] at h
    rw [Except.ok.injEq, Prod.mk.injEq] at h
    rw [← h.1]

/-- The None / Included_In branch registers its one annotation under a
freshly probed ID. -/
theorem newAnnAlignable_spec {d : Doc} {ti : Nat} {st : Option String}
    {value : Option String} {fromTs toTs : Option Int} {annRef : Option Ann}
    {d2 : Doc} {res : NewAnnResult}
    (h : newAnnAlignable d ti st value fromTs toTs annRef = .ok (d2, res)) :
    d2.annMap.length = d.annMap.length + res.anns.length ∧
    ((dictKeys d.annMap).Nodup → (dictKeys d2.annMap).Nodup) ∧
    (∀ k, k ∈ dictKeys d.annMap → k ∈ dictKeys d2.annMap) ∧
    (∀ a ∈ res.anns, a.ID ∈ dictKeys d2.annMap ∧ ∃ n, a.ID = some ("a" ++ Nat.repr n)) := by
  unfold newAnnAlignable at h
  cases hic : includedInCheck d st fromTs toTs annRef with
  | error e => simp only [hic] at h; exact Except.noConfusion h
  | ok u =>
    simp only [hic] at h
    cases hv : d.validateValue (d.tiers.getD ti default) value with
    | error e => simp only [hv] at h; exact Except.noConfusion h
    | ok cve =>
      simp only [hv] at h
      cases ht1 : d.newTimeslot fromTs with
      | error e => simp only [ht1] at h; exact Except.noConfusion h
      | ok pr1 =>
        obtain ⟨da, ts1⟩ := pr1
        simp only [ht1] at h
        cases ht2 : da.newTimeslot toTs with
        | error e => simp only [ht2] at h; exact Except.noConfusion h
        | ok pr2 =>
          obtain ⟨db, ts2⟩ := pr2
          simp only [ht2] at h
          cases hap : db.appendAnnNode ti
              (alignableNodeA cve ts1.ID ts2.ID value db.newAnnotationId) with
          | error e => simp only [hap] at h; exact Except.noConfusion h
          | ok pr3 =>
            obtain ⟨d3, ann⟩ := pr3
            simp only [hap] at h
            rw [Except.ok.injEq, Prod.mk.injEq] at h
            obtain ⟨hd2, hres⟩ := h
            obtain ⟨hparse, hmap⟩ := appendAnnNode_ok hap
            have annID : ann.ID = some db.newAnnotationId := alignableNodeA_ID hparse
            have hmapa : da.annMap = d.annMap := newTimeslot_annMap ht1
            have hmapb : db.annMap = da.annMap := newTimeslot_annMap ht2
            have hfresh : ann.ID ∉ dictKeys d3.annMap := by
              rw [annID, hmap]
              exact newAnnotationId_fresh db
            have hreg : (d3.registerAnn ann).annMap = dictInsert d3.annMap ann.ID ann := rfl
            have hchain : d3.annMap = d.annMap := by rw [hmap, hmapb, hmapa]
            have hanns : res.anns = [ann] := by rw [← hres]; rfl
            refine ⟨?_, ?_, ?_, ?_⟩
            · rw [← hd2, hanns, hreg, dictInsert_length_not_mem _ _ _ hfresh, hchain]
              rfl
            · intro hn
              rw [← hd2, hreg]
              exact dictKeys_nodup_insert _ _ _ (hchain ▸ hn)
            · intro k hk
              rw [← hd2, hreg]
              exact dictKeys_insert_mono _ _ _ _ (hchain ▸ hk)
            · intro a ha
              rw [hanns, List.mem_singleton] at ha
              subst ha
              refine ⟨?_, ?_⟩
              · rw [← hd2, hreg]
                exact dictKeys_insert_self_mem _ _ _
              · rw [annID]
                obtain ⟨n, hn⟩ := newAnnotationId_shape db
                exact ⟨n, by rw [hn]⟩

/-- The Symbolic_Association branch registers its one annotation under a
freshly probed ID. -/
theorem newAnnSymAssoc_spec {d : Doc} {ti : Nat} {value annRefId : Option String}
    {d2 : Doc} {res : NewAnnResult}
    (h : newAnnSymAssoc d ti value annRefId = .ok (d2, res)) :
    d2.annMap.length = d.annMap.length + res.anns.length ∧
    ((dictKeys d.annMap).Nodup → (dictKeys d2.annMap).Nodup) ∧
    (∀ k, k ∈ dictKeys d.annMap → k ∈ dictKeys d2.annMap) ∧
    (∀ a ∈ res.anns, a.ID ∈ dictKeys d2.annMap ∧ ∃ n, a.ID = some ("a" ++ Nat.repr n)) := by
  unfold newAnnSymAssoc at h
  cases hv : d.validateValue (d.tiers.getD ti default) value with
  | error e => simp only [hv] at h; exact Except.noConfusion h
  | ok cve =>
    simp only [hv] at h
    cases hap : d.appendAnnNode ti (refNodeAssoc cve annRefId value d.newAnnotationId) with
    | error e => simp only [hap] at h; exact Except.noConfusion h
    | ok pr =>
      obtain ⟨d1, ann⟩ := pr
      simp only [hap] at h
      rw [Except.ok.injEq, Prod.mk.injEq] at h
      obtain ⟨hd2, hres⟩ := h
      obtain ⟨hparse, hmap⟩ := appendAnnNode_ok hap
      have annID : ann.ID = some d.newAnnotationId := refNodeAssoc_ID hparse
      have hfresh : ann.ID ∉ dictKeys d1.annMap := by
        rw [annID, hmap]
        exact newAnnotationId_fresh d
      have hreg : (d1.registerAnn ann).annMap = dictInsert d1.annMap ann.ID ann := rfl
      have hanns : res.anns = [ann] := by rw [← hres]; rfl
      refine ⟨?_, ?_, ?_, ?_⟩
      · rw [← hd2, hanns, hreg, dictInsert_length_not_mem _ _ _ hfresh, hmap]
        rfl
      · intro hn
        rw [← hd2, hreg]
        exact dictKeys_nodup_insert _ _ _ (hmap ▸ hn)
      · intro k hk
        rw [← hd2, hreg]
        exact dictKeys_insert_mono _ _ _ _ (hmap ▸ hk)
      · intro a ha
        rw [hanns, List.mem_singleton] at ha
        subst ha
        refine ⟨?_, ?_⟩
        · rw [← hd2, hreg]
          exact dictKeys_insert_self_mem _ _ _
        · rw [annID]
          obtain ⟨n, hn⟩ := newAnnotationId_shape d
          exact ⟨n, by rw [hn]⟩

/-- The Symbolic_Subdivision branch registers each created annotation under
a freshly probed ID. -/
theorem newAnnSymSub_spec {d : Doc} {ti : Nat} {vals : List String}
    {annRefId : Option String} {annRef : Ann} {d2 : Doc} {res : NewAnnResult}
    (h : newAnnSymSub d ti vals annRefId annRef = .ok (d2, res)) :
    d2.annMap.length = d.annMap.length + res.anns.length ∧
    ((dictKeys d.annMap).Nodup → (dictKeys d2.annMap).Nodup) ∧
    (∀ k, k ∈ dictKeys d.annMap → k ∈ dictKeys d2.annMap) ∧
    (∀ a ∈ res.anns, a.ID ∈ dictKeys d2.annMap ∧ ∃ n, a.ID = some ("a" ++ Nat.repr n)) := by
  unfold newAnnSymSub at h
  cases hs : symSubScan d annRefId (d.tiers.getD ti default).annotations none [] with
  | error e => simp only [hs] at h; exact Except.noConfusion h
  | ok lastId =>
    simp only [hs] at h
    cases hl : symSubLoop ti annRef d vals lastId [] with
    | error e => simp only [hl] at h; exact Except.noConfusion h
    | ok pr =>
      obtain ⟨d1, anns⟩ := pr
      simp only [hl] at h
      rw [Except.ok.injEq, Prod.mk.injEq] at h
      obtain ⟨hd2, hres⟩ := h
      obtain ⟨newA, hanns, hlen, hnodup, hmono, hregd⟩ :=
        symSubLoop_spec ti annRef vals d lastId [] d1 anns hl
      rw [List.nil_append] at hanns
      subst hanns
      have hra : res.anns = anns := by rw [← hres]; rfl
      refine ⟨?_, ?_, ?_, ?_⟩
      · rw [← hd2, hra]
        exact hlen
      · intro hn
        rw [← hd2]
        exact hnodup hn
      · intro k hk
        rw [← hd2]
        exact hmono k hk
      · intro a ha
        rw [hra] at ha
        rw [← hd2]
        exact hregd a ha

/-- The Time_Subdivision branch registers each created annotation under a
freshly probed ID. -/
theorem newAnnTimeSub_spec {d : Doc} {ti : Nat} {vals : List String} {annRef : Ann}
    {timeslots : Option (List (Option Int))} {d2 : Doc} {res : NewAnnResult}
    (h : newAnnTimeSub d ti vals annRef timeslots = .ok (d2, res)) :
    d2.annMap.length = d.annMap.length + res.anns.length ∧
    ((dictKeys d.annMap).Nodup → (dictKeys d2.annMap).Nodup) ∧
    (∀ k, k ∈ dictKeys d.annMap → k ∈ dictKeys d2.annMap) ∧
    (∀ a ∈ res.anns, a.ID ∈ dictKeys d2.annMap ∧ ∃ n, a.ID = some ("a" ++ Nat.repr n)) := by
  unfold newAnnTimeSub at h
  by_cases hg : vals.length > 1 ∧
      (optListFalsy timeslots = true ∨ (timeslots.getD []).length ≠ vals.length - 1)
  · rw [if_pos hg] at h
    exact Except.noConfusion h
  · rw [if_neg hg] at h
    cases timeslots with
    | none => exact Except.noConfusion h
    | some tss =>
      cases hc : timeSubCheckLoop d (d.annFromTs annRef) (d.annToTs annRef) tss with
      | error e => simp only [hc] at h; exact Except.noConfusion h
      | ok u =>
        simp only [hc] at h
        cases hf : d.annFromTs annRef with
        | none => simp only [hf] at h; exact Except.noConfusion h
        | some f =>
          simp only [hf] at h
          cases hb : timeSubBoundaries d tss vals f with
          | error e => simp only [hb] at h; exact Except.noConfusion h
          | ok prb =>
            obtain ⟨d1, ids1⟩ := prb
            simp only [hb] at h
            cases hg2 : d1.annToTs annRef with
            | none => simp only [hg2] at h; exact Except.noConfusion h
            | some g =>
              simp only [hg2] at h
              cases hl : timeSubLoop ti (ids1 ++ [g.ID]) d1 vals 0 [] with
              | error e => simp only [hl] at h; exact Except.noConfusion h
              | ok prl =>
                obtain ⟨d3, anns⟩ := prl
                simp only [hl] at h
                rw [Except.ok.injEq, Prod.mk.injEq] at h
                obtain ⟨hd2, hres⟩ := h
                obtain ⟨newA, hanns, hlen, hnodup, hmono, hregd⟩ :=
                  timeSubLoop_spec ti (ids1 ++ [g.ID]) vals d1 0 [] d3 anns hl
                rw [List.nil_append] at hanns
                subst hanns
                have hmapb : d1.annMap = d.annMap := timeSubBoundaries_annMap hb
                have hra : res.anns = anns := by rw [← hres]; rfl
                refine ⟨?_, ?_, ?_, ?_⟩
                · rw [← hd2, hra, hlen, hmapb]
                · intro hn
                  rw [← hd2]
                  exact hnodup (hmapb ▸ hn)
                · intro k hk
                  rw [← hd2]
                  exact hmono k (hmapb ▸ hk)
                · intro a ha
                  rw [hra] at ha
                  rw [← hd2]
                  exact hregd a ha

/-- Any successful annotation creation, on any tier, grows the global index
by exactly the number of created annotations, preserves key uniqueness and
existing keys, and registers every created annotation under a probed ID of
shape a1, a2, ... -/
theorem newAnnotation_spec {d : Doc} {ti : Nat} {value : Option String}
    {fromTs toTs : Option Int} {annRefId : Option String}
    {values : Option (List String)} {timeslots : Option (List (Option Int))}
    {d2 : Doc} {res : NewAnnResult}
    (h : Tier.newAnnotation d ti value fromTs toTs annRefId values timeslots =
      .ok (d2, res)) :
    d2.annMap.length = d.annMap.length + res.anns.length ∧
    ((dictKeys d.annMap).Nodup → (dictKeys d2.annMap).Nodup) ∧
    (∀ k, k ∈ dictKeys d.annMap → k ∈ dictKeys d2.annMap) ∧
    (∀ a ∈ res.anns, a.ID ∈ dictKeys d2.annMap ∧ ∃ n, a.ID = some ("a" ++ Nat.repr n)) := by
  unfold Tier.newAnnotation at h
  cases hst : d.stereotypeOf (d.tiers.getD ti default) with
  | none => simp only [hst] at h; exact Except.noConfusion h
  | some st =>
    simp only [hst] at h
    by_cases h1 : (st = none ∨ st = some "Included_In") ∧ fromTs = none
    · rw [if_pos h1] at h; exact Except.noConfusion h
    · rw [if_neg h1] at h
      by_cases h2 : (st = none ∨ st = some "Included_In") ∧ toTs = none
      · rw [if_pos h2] at h; exact Except.noConfusion h
      · rw [if_neg h2] at h
        by_cases h3 : ¬(st = none ∨ st = some "Included_In") ∧ fromTs ≠ none
        · rw [if_pos h3] at h; exact Except.noConfusion h
        · rw [if_neg h3] at h
          by_cases h4 : ¬(st = none ∨ st = some "Included_In") ∧ toTs ≠ none
          · rw [if_pos h4] at h; exact Except.noConfusion h
          · rw [if_neg h4] at h
            by_cases h5 : optStrTruthy annRefId = true ∧ annRefLookup d annRefId = none
            · rw [if_pos h5] at h; exact Except.noConfusion h
            · rw [if_neg h5] at h
              by_cases h6 : st ≠ none ∧ annRefLookup d annRefId = none
              · rw [if_pos h6] at h; exact Except.noConfusion h
              · rw [if_neg h6] at h
                by_cases h7 : st = none ∨ st = some "" ∨ st = some "Included_In"
                · rw [if_pos h7] at h
                  exact newAnnAlignable_spec h
                · rw [if_neg h7] at h
                  by_cases h8 : st = some "Time_Subdivision" ∨
                      st = some "Symbolic_Subdivision"
                  · rw [if_pos h8] at h
                    cases hva : validateAll d (d.tiers.getD ti default)
                        (collectValues value values) with
                    | error e => simp only [hva] at h; exact Except.noConfusion h
                    | ok u =>
                      simp only [hva] at h
                      cases hrl : annRefLookup d annRefId with
                      | none => simp only [hrl] at h; exact Except.noConfusion h
                      | some ra =>
                        simp only [hrl] at h
                        by_cases h9 : st = some "Symbolic_Subdivision"
                        · rw [if_pos h9] at h
                          exact newAnnSymSub_spec h
                        · rw [if_neg h9] at h
                          exact newAnnTimeSub_spec h
                  · rw [if_neg h8] at h
                    by_cases h10 : st = some "Symbolic_Association"
                    · rw [if_pos h10] at h
                      exact newAnnSymAssoc_spec h
                    · rw [if_neg h10] at h
                      exact Except.noConfusion h

/-- C8: annotation IDs are globally unique.  The probed ID is always absent
from the index and of shape a1, a2, ...; any successful creation grows the
index by exactly the number of created annotations, preserves the
uniqueness of the registered IDs, and registers every created annotation
under such a probed ID — so any sequence of successful creations keeps the
index keys unique; concretely, the mixed sequence behind the example
document yields exactly the IDs a1, a2, a3, a4. -/
theorem C8_annotation_id_uniqueness :
    (∀ d : Doc, some d.newAnnotationId ∉ dictKeys d.annMap ∧
      ∃ k, d.newAnnotationId = "a" ++ Nat.repr k) ∧
    (∀ d ti value fromTs toTs annRefId values timeslots d2 res,
      Tier.newAnnotation d ti value fromTs toTs annRefId values timeslots =
        .ok (d2, res) →
      d2.annMap.length = d.annMap.length + res.anns.length ∧
      ((dictKeys d.annMap).Nodup → (dictKeys d2.annMap).Nodup) ∧
      (∀ a ∈ res.anns, a.ID ∈ dictKeys d2.annMap ∧
        ∃ n, a.ID = some ("a" ++ Nat.repr n))) ∧
    (dictKeys exDoc3.annMap = [some "a1", some "a2", some "a3", some "a4"] ∧
      (dictKeys exDoc3.annMap).Nodup) := by
  refine ⟨fun d => ⟨newAnnotationId_fresh d, newAnnotationId_shape d⟩, ?_, rfl, ?_⟩
  · intro d ti value fromTs toTs annRefId values timeslots d2 res h
    obtain ⟨hl, hn, _, hr⟩ := newAnnotation_spec h
    exact ⟨hl, hn, hr⟩
  · have he : dictKeys exDoc3.annMap =
        [some "a1", some "a2", some "a3", some "a4"] := rfl
    rw [he]
    decide
